import Mathlib

/-!
# Alarm controller (`src/main.cpp`): shallow embedding and verified properties

The program is a single-threaded polling loop over process-wide variables.
The embedding keeps one record `State` holding those variables under their
source names, and one Lean function per source function.  Hardware reads
(analog sample, gas line, test button, keypad scan, serial input, clock) are
explicit arguments of the function that performs the read.

Modelling conventions:
* `int` variables are `Nat`: every one of them starts at `0` and is only ever
  reset to `0` or incremented, so no negative value occurs; signed overflow
  (more than `2^31 - 1` increments without a reset) is outside the model.
* `float` temperature values are rationals (exact arithmetic).
* C arrays are maps from the offset to the cell (`Nat → α`); the declared
  length is the corresponding constant (`NUMBER_OF_KEYS`, ...).  A store at an
  offset past the declared length changes no cell inside the array.
* text written to the serial port is not part of the state.
-/

namespace AlarmSystem

/-! ## Defines -/

def NUMBER_OF_KEYS : Nat := 3
def BLINKING_TIME_GAS_ALARM : Nat := 1000
def BLINKING_TIME_OVER_TEMP_ALARM : Nat := 500
def BLINKING_TIME_GAS_AND_OVER_TEMP_ALARM : Nat := 100
def NUMBER_OF_AVG_SAMPLES : Nat := 100
def OVER_TEMP_LEVEL : ℚ := 50
def TIME_INCREMENT_MS : Nat := 10
def DEBOUNCE_KEY_TIME_MS : Nat := 40
def KEYPAD_NUMBER_OF_ROWS : Nat := 4
def KEYPAD_NUMBER_OF_COLS : Nat := 4
def EVENT_MAX_STORAGE : Nat := 100
def EVENT_NAME_MAX_LENGTH : Nat := 14

/-- The character `'\0'`, returned by the keypad functions for "no key". -/
def NUL : Char := Char.ofNat 0

/-! ## Data types -/

/-- The `matrixKeypadState_t` enumeration.  The `default:` arm of the switch in
`matrixKeypadUpdate` has no counterpart: the type has exactly these values. -/
inductive matrixKeypadState_t where
  | MATRIX_KEYPAD_SCANNING
  | MATRIX_KEYPAD_DEBOUNCE
  | MATRIX_KEYPAD_KEY_HOLD_PRESSED
  deriving DecidableEq, Repr

open matrixKeypadState_t

/-- The `systemEvent_t` record. -/
structure systemEvent_t where
  seconds : Nat
  typeOfEvent : String
  deriving DecidableEq, Repr

/-- Direction of the `DigitalInOut` siren pin: `input` is high impedance. -/
inductive PinMode where
  | input
  | output
  deriving DecidableEq, Repr

/-- The global objects and variables of `main.cpp`, plus the function-static
`lm35SampleIndex` of `alarmActivationUpdate`. -/
structure State where
  alarmLed : Bool
  incorrectCodeLed : Bool
  systemBlockedLed : Bool
  sirenPinMode : PinMode
  sirenPin : Bool
  alarmState : Bool
  incorrectCode : Bool
  overTempDetector : Bool
  numberOfIncorrectCodes : Nat
  numberOfHashKeyReleasedEvents : Nat
  keyBeingCompared : Nat
  codeSequence : Nat → Char
  keyPressed : Nat → Char
  accumulatedTimeAlarm : Nat
  alarmLastState : Bool
  gasLastState : Bool
  tempLastState : Bool
  ICLastState : Bool
  SBLastState : Bool
  gasDetectorState : Bool
  overTempDetectorState : Bool
  lm35ReadingsAverage : ℚ
  lm35ReadingsSum : ℚ
  lm35ReadingsArray : Nat → ℚ
  lm35TempC : ℚ
  lm35SampleIndex : Nat
  accumulatedDebounceMatrixKeypadTime : Nat
  matrixKeypadCodeIndex : Nat
  matrixKeypadLastKeyPressed : Char
  matrixKeypadState : matrixKeypadState_t
  eventsIndex : Nat
  arrayOfStoredEvents : Nat → systemEvent_t

/-- Serial input seen by one call of `uartTask`: whether a character is
waiting (`uartUsb.readable()`), and the characters delivered by the successive
`uartUsb.read` calls of that invocation (`chars 0` is the command). -/
structure UartRx where
  readable : Bool
  chars : Nat → Char

/-- Hardware readings of one iteration of the polling loop. -/
structure TickInput where
  lm35 : ℚ
  mq2 : Bool
  alarmTestButton : Bool
  keypadScan : Char
  uart : UartRx
  now : Nat

/-! ## Keypad -/

def matrixKeypadIndexToCharArray : List Char :=
  ['1', '2', '3', 'A',
   '4', '5', '6', 'B',
   '7', '8', '9', 'C',
   '*', '0', '#', 'D']

/-- The function `matrixKeypadScan`; `colLow row col` is the reading
`keypadColPins[col] == OFF` taken while row `row` is the one driven low. -/
def matrixKeypadScan (colLow : Nat → Nat → Bool) : Char :=
  ((List.range KEYPAD_NUMBER_OF_ROWS).flatMap fun row =>
      ((List.range KEYPAD_NUMBER_OF_COLS).filter fun col => colLow row col).map fun col =>
        matrixKeypadIndexToCharArray.getD (row * KEYPAD_NUMBER_OF_ROWS + col) NUL).headD NUL

/-- The function `matrixKeypadUpdate`; `scan` is the value `matrixKeypadScan()`
yields at this call (it is consulted only on the paths that call it).  Returns
`keyReleased` and the new state. -/
def matrixKeypadUpdate (scan : Char) (s : State) : Char × State :=
  match s.matrixKeypadState with
  | MATRIX_KEYPAD_SCANNING =>
    if scan ≠ NUL then
      (NUL, { s with matrixKeypadLastKeyPressed := scan
                     accumulatedDebounceMatrixKeypadTime := 0
                     matrixKeypadState := MATRIX_KEYPAD_DEBOUNCE })
    else (NUL, s)
  | MATRIX_KEYPAD_DEBOUNCE =>
    let s1 :=
      if s.accumulatedDebounceMatrixKeypadTime ≥ DEBOUNCE_KEY_TIME_MS then
        if scan = s.matrixKeypadLastKeyPressed then
          { s with matrixKeypadState := MATRIX_KEYPAD_KEY_HOLD_PRESSED }
        else
          { s with matrixKeypadState := MATRIX_KEYPAD_SCANNING }
      else s
    (NUL, { s1 with accumulatedDebounceMatrixKeypadTime :=
                      s1.accumulatedDebounceMatrixKeypadTime + TIME_INCREMENT_MS })
  | MATRIX_KEYPAD_KEY_HOLD_PRESSED =>
    if scan ≠ s.matrixKeypadLastKeyPressed then
      (if scan = NUL then s.matrixKeypadLastKeyPressed else NUL,
       { s with matrixKeypadState := MATRIX_KEYPAD_SCANNING })
    else (NUL, s)

/-! ## Temperature sensor -/

def analogReadingScaledWithTheLM35Formula (analogReading : ℚ) : ℚ :=
  analogReading * (33 / 10) / (1 / 100)

def celsiusToFahrenheit (tempInCelsiusDegrees : ℚ) : ℚ :=
  tempInCelsiusDegrees * 9 / 5 + 32

/-! ## Alarm activation -/

/-- First part of `alarmActivationUpdate` (the statements up to the assignment
of `overTempDetector`): store the sample `lm35Read = lm35.read()`, advance the
index, re-sum the buffer, average, scale, compare with `OVER_TEMP_LEVEL`. -/
def lm35Sample (lm35Read : ℚ) (s : State) : State :=
  let arr := Function.update s.lm35ReadingsArray s.lm35SampleIndex lm35Read
  let idx := if s.lm35SampleIndex + 1 ≥ NUMBER_OF_AVG_SAMPLES then 0 else s.lm35SampleIndex + 1
  let sum := (List.range NUMBER_OF_AVG_SAMPLES).foldl (fun acc i => acc + arr i) 0
  let avg := sum / (NUMBER_OF_AVG_SAMPLES : ℚ)
  let tempC := analogReadingScaledWithTheLM35Formula avg
  { s with lm35ReadingsArray := arr, lm35SampleIndex := idx, lm35ReadingsSum := sum
           lm35ReadingsAverage := avg, lm35TempC := tempC
           overTempDetector := decide (tempC > OVER_TEMP_LEVEL) }

/-- Second part of `alarmActivationUpdate`: the three `if` statements on `!mq2`,
`overTempDetector` and `alarmTestButton`, which latch the detector states and
the alarm. -/
def latchDetectors (mq2 alarmTestButton : Bool) (s : State) : State :=
  let s := if !mq2 then { s with gasDetectorState := true, alarmState := true } else s
  let s := if s.overTempDetector then { s with overTempDetectorState := true, alarmState := true }
           else s
  if alarmTestButton then
    { s with overTempDetectorState := true, gasDetectorState := true, alarmState := true }
  else s

/-- Last part of `alarmActivationUpdate`: the statement
`if( alarmState ) { ... } else { ... }` driving the siren pin and the indicator. -/
def alarmOutputs (s : State) : State :=
  if s.alarmState then
    let s := { s with accumulatedTimeAlarm := s.accumulatedTimeAlarm + TIME_INCREMENT_MS
                      sirenPinMode := PinMode.output, sirenPin := false }
    if s.gasDetectorState && s.overTempDetectorState then
      if s.accumulatedTimeAlarm ≥ BLINKING_TIME_GAS_AND_OVER_TEMP_ALARM then
        { s with accumulatedTimeAlarm := 0, alarmLed := !s.alarmLed }
      else s
    else if s.gasDetectorState then
      if s.accumulatedTimeAlarm ≥ BLINKING_TIME_GAS_ALARM then
        { s with accumulatedTimeAlarm := 0, alarmLed := !s.alarmLed }
      else s
    else if s.overTempDetectorState then
      if s.accumulatedTimeAlarm ≥ BLINKING_TIME_OVER_TEMP_ALARM then
        { s with accumulatedTimeAlarm := 0, alarmLed := !s.alarmLed }
      else s
    else s
  else
    { s with alarmLed := false, gasDetectorState := false, overTempDetectorState := false
             sirenPinMode := PinMode.input }

/-- The function `alarmActivationUpdate`; `lm35Read` is `lm35.read()`, `mq2` the
level of the gas line, `alarmTestButton` the level of the button. -/
def alarmActivationUpdate (lm35Read : ℚ) (mq2 alarmTestButton : Bool) (s : State) : State :=
  alarmOutputs (latchDetectors mq2 alarmTestButton (lm35Sample lm35Read s))

/-! ## Alarm deactivation -/

/-- The function `areEqual`. -/
def areEqual (s : State) : Bool :=
  (List.range NUMBER_OF_KEYS).all fun i => s.codeSequence i == s.keyPressed i

/-- The body of `alarmDeactivationUpdate` below the call of `matrixKeypadUpdate`,
inside the branch `numberOfIncorrectCodes < 5`, for the key `keyReleased` that
call returned. -/
def processKeyReleased (keyReleased : Char) (s : State) : State :=
  let s :=
    if keyReleased ≠ NUL ∧ keyReleased ≠ '#' then
      { s with keyPressed := Function.update s.keyPressed s.matrixKeypadCodeIndex keyReleased
               matrixKeypadCodeIndex :=
                 if s.matrixKeypadCodeIndex ≥ NUMBER_OF_KEYS then 0
                 else s.matrixKeypadCodeIndex + 1 }
    else s
  if keyReleased = '#' then
    if s.incorrectCodeLed then
      let s := { s with numberOfHashKeyReleasedEvents := s.numberOfHashKeyReleasedEvents + 1 }
      if s.numberOfHashKeyReleasedEvents ≥ 2 then
        { s with incorrectCodeLed := false, numberOfHashKeyReleasedEvents := 0
                 matrixKeypadCodeIndex := 0 }
      else s
    else if s.alarmState then
      if areEqual s then
        { s with alarmState := false, numberOfIncorrectCodes := 0, matrixKeypadCodeIndex := 0 }
      else
        { s with incorrectCodeLed := true
                 numberOfIncorrectCodes := s.numberOfIncorrectCodes + 1 }
    else s
  else s

/-- The function `alarmDeactivationUpdate`; `scan` is the keypad scan available
to its call of `matrixKeypadUpdate`. -/
def alarmDeactivationUpdate (scan : Char) (s : State) : State :=
  if s.numberOfIncorrectCodes < 5 then
    processKeyReleased (matrixKeypadUpdate scan s).1 (matrixKeypadUpdate scan s).2
  else
    { s with systemBlockedLed := true }

/-! ## Serial console -/

/-- One iteration of the `for` loop of command `'4'` in `uartTask`, with
`keyBeingCompared = k`: the next character is read and compared. -/
def compareReceivedKey (rx : UartRx) (s : State) (k : Nat) : State :=
  let s := { s with keyBeingCompared := k }
  if s.codeSequence s.keyBeingCompared ≠ rx.chars (k + 1) then
    { s with incorrectCode := true }
  else s

/-- The function `uartTask`.  Only commands `'4'` and `'5'` write variables of
the state; every other command only prints (command `'s'` sets the clock, which
enters the model through `TickInput.now`). -/
def uartTask (rx : UartRx) (s : State) : State :=
  if rx.readable then
    if rx.chars 0 = '4' then
      let s := (List.range NUMBER_OF_KEYS).foldl (compareReceivedKey rx)
        { s with incorrectCode := false }
      let s := { s with keyBeingCompared := NUMBER_OF_KEYS }
      if s.incorrectCode = false then
        { s with alarmState := false, incorrectCodeLed := false, numberOfIncorrectCodes := 0 }
      else
        { s with incorrectCodeLed := true
                 numberOfIncorrectCodes := s.numberOfIncorrectCodes + 1 }
    else if rx.chars 0 = '5' then
      { s with keyBeingCompared := NUMBER_OF_KEYS }
    else s
  else s

/-! ## Event log -/

/-- The function `systemElementStateUpdate`; `now` is `time(NULL)`.  `snprintf`
into a buffer of `EVENT_NAME_MAX_LENGTH` bytes keeps at most
`EVENT_NAME_MAX_LENGTH - 1` characters. -/
def systemElementStateUpdate (now : Nat) (lastState currentState : Bool) (elementName : String)
    (s : State) : State :=
  if lastState = currentState then s
  else
    let eventStr :=
      (elementName ++ "_" ++ (if currentState then "ON" else "OFF")).take
        (EVENT_NAME_MAX_LENGTH - 1)
    let event : systemEvent_t := { seconds := now, typeOfEvent := eventStr }
    let s := { s with arrayOfStoredEvents :=
                 Function.update s.arrayOfStoredEvents s.eventsIndex event }
    if s.eventsIndex + 1 ≥ EVENT_MAX_STORAGE then { s with eventsIndex := 0 }
    else { s with eventsIndex := s.eventsIndex + 1 }

/-- The function `eventLogUpdate`; the gas line keeps the level `mq2` for the
whole call. -/
def eventLogUpdate (now : Nat) (mq2 : Bool) (s : State) : State :=
  let s := systemElementStateUpdate now s.alarmLastState s.alarmState "ALARM" s
  let s := { s with alarmLastState := s.alarmState }
  let s := systemElementStateUpdate now s.gasLastState (!mq2) "GAS_DET" s
  let s := { s with gasLastState := !mq2 }
  let s := systemElementStateUpdate now s.tempLastState s.overTempDetector "OVER_TEMP" s
  let s := { s with tempLastState := s.overTempDetector }
  let s := systemElementStateUpdate now s.ICLastState s.incorrectCodeLed "LED_IC" s
  let s := { s with ICLastState := s.incorrectCodeLed }
  let s := systemElementStateUpdate now s.SBLastState s.systemBlockedLed "LED_SB" s
  { s with SBLastState := s.systemBlockedLed }

/-! ## Main function -/

/-- The variables as initialised at their declaration, followed by `inputsInit`
and `outputsInit`. -/
def powerOnState : State where
  alarmLed := false
  incorrectCodeLed := false
  systemBlockedLed := false
  sirenPinMode := PinMode.input
  sirenPin := false
  alarmState := false
  incorrectCode := false
  overTempDetector := false
  numberOfIncorrectCodes := 0
  numberOfHashKeyReleasedEvents := 0
  keyBeingCompared := 0
  codeSequence := fun i => ['1', '8', '0'].getD i NUL
  keyPressed := fun i => ['0', '0', '0'].getD i NUL
  accumulatedTimeAlarm := 0
  alarmLastState := false
  gasLastState := false
  tempLastState := false
  ICLastState := false
  SBLastState := false
  gasDetectorState := false
  overTempDetectorState := false
  lm35ReadingsAverage := 0
  lm35ReadingsSum := 0
  lm35ReadingsArray := fun _ => 0
  lm35TempC := 0
  lm35SampleIndex := 0
  accumulatedDebounceMatrixKeypadTime := 0
  matrixKeypadCodeIndex := 0
  matrixKeypadLastKeyPressed := NUL
  matrixKeypadState := MATRIX_KEYPAD_SCANNING
  eventsIndex := 0
  arrayOfStoredEvents := fun _ => { seconds := 0, typeOfEvent := "" }

/-- The code-entry loop at the start of `main`, one keypad scan per iteration,
ending with the copy of `newCode` into `codeSequence`.  `none`: the scans ran
out before the entry was complete (the loop has not exited yet). -/
def readNewCode : List Char → (Nat → Char) → Nat → State → Option State
  | [], _, _, _ => none
  | scan :: rest, newCode, idx, s =>
    let key := (matrixKeypadUpdate scan s).1
    let s := (matrixKeypadUpdate scan s).2
    if key ≠ NUL then
      let store : Bool := decide ('0' ≤ key ∧ key ≤ '9' ∧ idx < NUMBER_OF_KEYS)
      let newCode := if store then Function.update newCode idx key else newCode
      let idx := if store then idx + 1 else idx
      if key = '#' ∧ idx = NUMBER_OF_KEYS then
        some { s with codeSequence := fun i =>
                        if i < NUMBER_OF_KEYS then newCode i else s.codeSequence i }
      else readNewCode rest newCode idx s
    else readNewCode rest newCode idx s

/-- One iteration of the `while (true)` loop of `main`. -/
def mainLoopTick (inp : TickInput) (s : State) : State :=
  eventLogUpdate inp.now inp.mq2
    (uartTask inp.uart
      (alarmDeactivationUpdate inp.keypadScan
        (alarmActivationUpdate inp.lm35 inp.mq2 inp.alarmTestButton s)))

/-- The polling loop run over the given iterations. -/
def mainLoop (ticks : List TickInput) (s : State) : State :=
  ticks.foldl (fun s inp => mainLoopTick inp s) s

/-- The function `main`: code entry on the scans `entry`, then the polling loop
over `ticks`. -/
def main (entry : List Char) (ticks : List TickInput) : Option State :=
  (readNewCode entry (fun _ => NUL) 0 powerOnState).map (mainLoop ticks)

/-! ## Runs and traces -/

/-- State of the keypad machine after the first `n` calls of
`matrixKeypadUpdate`, call number `i` being made with scan `scans i`. -/
def keypadStateAfter (scans : Nat → Char) (s : State) : Nat → State
  | 0 => s
  | n + 1 => (matrixKeypadUpdate (scans n) (keypadStateAfter scans s n)).2

/-- Key returned by call number `n` (counting from 0) of `matrixKeypadUpdate`. -/
def keypadOutput (scans : Nat → Char) (s : State) (n : Nat) : Char :=
  (matrixKeypadUpdate (scans n) (keypadStateAfter scans s n)).1

/-- A finite list of scans as a scan sequence, continued with "no key". -/
def scansOfList (l : List Char) : Nat → Char := fun i => l.getD i NUL

/-- Successive calls of `alarmDeactivationUpdate`, one per scan. -/
def deactivationRun (scans : List Char) (s : State) : State :=
  scans.foldl (fun s scan => alarmDeactivationUpdate scan s) s

/-- Keys handed to the key-processing part of `alarmDeactivationUpdate` over
successive calls, one per scan: the non-NUL values returned by its calls of
`matrixKeypadUpdate` (none while `numberOfIncorrectCodes ≥ 5`, where the keypad
is not polled). -/
def releasedKeys : List Char → State → List Char
  | [], _ => []
  | scan :: rest, s =>
    (if s.numberOfIncorrectCodes < 5 ∧ (matrixKeypadUpdate scan s).1 ≠ NUL then
      [(matrixKeypadUpdate scan s).1] else []) ++
      releasedKeys rest (alarmDeactivationUpdate scan s)

/-- The values of `f` on the states at the end of each iteration of the polling
loop, in order. -/
def loopTrace {α : Type} (f : State → α) : List TickInput → State → List α
  | [], _ => []
  | inp :: rest, s => f (mainLoopTick inp s) :: loopTrace f rest (mainLoopTick inp s)

/-- The function `main` observed through `f` at the end of each iteration of the
polling loop. -/
def mainTrace {α : Type} (f : State → α) (entry : List Char) (ticks : List TickInput) :
    Option (List α) :=
  (readNewCode entry (fun _ => NUL) 0 powerOnState).map (loopTrace f ticks)

/-- The values of `f` on the states right after the call of
`alarmDeactivationUpdate` in each iteration of the polling loop, in order. -/
def deactivationTrace {α : Type} (f : State → α) : List TickInput → State → List α
  | [], _ => []
  | inp :: rest, s =>
    f (alarmDeactivationUpdate inp.keypadScan
        (alarmActivationUpdate inp.lm35 inp.mq2 inp.alarmTestButton s)) ::
      deactivationTrace f rest (mainLoopTick inp s)

/-! ## Predicates used in the statements -/

/-- Invariant of the keypad machine after `n` calls on the scans `scans`, when
the run started in `MATRIX_KEYPAD_SCANNING`: a pending or held key was scanned
at a detection call `d`, and on every call from `d + 5` on. -/
def DebounceInv (scans : Nat → Char) (n : Nat) (s : State) : Prop :=
  match s.matrixKeypadState with
  | MATRIX_KEYPAD_SCANNING => True
  | MATRIX_KEYPAD_DEBOUNCE =>
    s.matrixKeypadLastKeyPressed ≠ NUL ∧ s.accumulatedDebounceMatrixKeypadTime ≤ 40 ∧
      ∃ d, d < n ∧ scans d = s.matrixKeypadLastKeyPressed ∧
        s.accumulatedDebounceMatrixKeypadTime = 10 * (n - 1 - d)
  | MATRIX_KEYPAD_KEY_HOLD_PRESSED =>
    s.matrixKeypadLastKeyPressed ≠ NUL ∧
      ∃ d, d + 6 ≤ n ∧ scans d = s.matrixKeypadLastKeyPressed ∧
        ∀ j, d + 5 ≤ j → j < n → scans j = s.matrixKeypadLastKeyPressed

/-- Progress of a code entry: alarm active, below the lockout limit, indicator
off, `m` keys of the code `c` entered at positions `0 .. m - 1`. -/
def EntryInv (c : Nat → Char) (m : Nat) (s : State) : Prop :=
  s.alarmState = true ∧ s.numberOfIncorrectCodes < 5 ∧ s.incorrectCodeLed = false ∧
    s.matrixKeypadCodeIndex = m ∧ s.codeSequence = c ∧ ∀ i, i < m → s.keyPressed i = c i

/-- A disarm comparison succeeds in the loop iteration with readings `inp`
started in state `s`: either the keypad path is polled, returns `#` with the
incorrect-code indicator off, and the entered digits equal `codeSequence`, or
console command `4` arrives with three characters equal to `codeSequence`. -/
def DisarmSucceeds (inp : TickInput) (s : State) : Prop :=
  (s.numberOfIncorrectCodes < 5 ∧ (matrixKeypadUpdate inp.keypadScan s).1 = '#' ∧
    s.incorrectCodeLed = false ∧ areEqual s = true) ∨
  (inp.uart.readable = true ∧ inp.uart.chars 0 = '4' ∧
    ∀ k, k < NUMBER_OF_KEYS → s.codeSequence k = inp.uart.chars (k + 1))

instance (inp : TickInput) (s : State) : Decidable (DisarmSucceeds inp s) := by
  unfold DisarmSucceeds
  infer_instance

/-- No disarm comparison succeeds in any of the loop iterations `ticks` run
from state `s`. -/
def NoDisarm : List TickInput → State → Prop
  | [], _ => True
  | inp :: rest, s => ¬ DisarmSucceeds inp s ∧ NoDisarm rest (mainLoopTick inp s)

/-- One blink step with period `period` from state `s` to state `s'`: the
indicator is toggled and the accumulated time reset when the accumulated time
plus one tick reaches the period, and otherwise the indicator is unchanged and
the accumulated time has advanced by one tick. -/
def BlinkStep (period : Nat) (s s' : State) : Prop :=
  (s.accumulatedTimeAlarm + TIME_INCREMENT_MS ≥ period →
    s'.alarmLed = !s.alarmLed ∧ s'.accumulatedTimeAlarm = 0) ∧
  (s.accumulatedTimeAlarm + TIME_INCREMENT_MS < period →
    s'.alarmLed = s.alarmLed ∧
    s'.accumulatedTimeAlarm = s.accumulatedTimeAlarm + TIME_INCREMENT_MS)

/-! ## Concrete readings used in examples -/

/-- Scans of one complete press of key `k`: six scans showing `k`, then none. -/
def pressScans (k : Char) : List Char := [k, k, k, k, k, k, NUL]

/-- Scans of the presses `1`, `8`, `0`, `#`. -/
def scans180 : List Char :=
  pressScans '1' ++ pressScans '8' ++ pressScans '0' ++ pressScans '#'

/-- A loop iteration with no hazard, no serial input, and keypad scan `scan`. -/
def quietTick (scan : Char) : TickInput :=
  { lm35 := 0, mq2 := true, alarmTestButton := false, keypadScan := scan,
    uart := { readable := false, chars := fun _ => NUL }, now := 0 }

/-- A loop iteration with the test button pressed. -/
def buttonTick : TickInput :=
  { lm35 := 0, mq2 := true, alarmTestButton := true, keypadScan := NUL,
    uart := { readable := false, chars := fun _ => NUL }, now := 0 }

/-- A loop iteration with the test button pressed and console command `4`
followed by the characters `c0 c1 c2`. -/
def consoleTick (c0 c1 c2 : Char) : TickInput :=
  { lm35 := 0, mq2 := true, alarmTestButton := true, keypadScan := NUL,
    uart := { readable := true, chars := scansOfList ['4', c0, c1, c2] }, now := 0 }

/-- A loop iteration with no hazard, keypad scan `scan`, and console command
`4` followed by the characters `c0 c1 c2`. -/
def quietConsoleTick (scan c0 c1 c2 : Char) : TickInput :=
  { lm35 := 0, mq2 := true, alarmTestButton := false, keypadScan := scan,
    uart := { readable := true, chars := scansOfList ['4', c0, c1, c2] }, now := 0 }

/-- Five wrong console attempts with the test button pressed, then an idle
iteration. -/
def lockoutTicks : List TickInput :=
  List.replicate 5 (consoleTick '0' '0' '0') ++ [quietTick NUL]

/-- Four wrong console attempts, two presses of `#` that acknowledge the
incorrect-code indicator, and `#` scanned six more times (so it is held). -/
def fourFailuresTicks : List TickInput :=
  List.replicate 4 (consoleTick '0' '0' '0') ++
    (pressScans '#' ++ pressScans '#' ++ ['#', '#', '#', '#', '#', '#']).map quietTick

/-- Idle iterations in which the keys `1`, `2`, `3`, `4` are pressed and
released one after the other. -/
def fourKeysTicks : List TickInput :=
  (pressScans '1' ++ pressScans '2' ++ pressScans '3' ++ pressScans '4').map quietTick

/-- The state after the test button started the alarm and key `#` was scanned
six times: `#` is held, the entered digits are still `0 0 0`. -/
def hashHeldState : State :=
  deactivationRun ['#', '#', '#', '#', '#', '#'] (mainLoopTick buttonTick powerOnState)

/-- A wrong console attempt, one press of `#`, a right console attempt, another
wrong console attempt and one more press of `#`; no hazard throughout. -/
def staleHashTicks : List TickInput :=
  [quietConsoleTick NUL '0' '0' '0'] ++ (pressScans '#').map quietTick ++
    [quietConsoleTick NUL '1' '8' '0', quietConsoleTick NUL '0' '0' '0'] ++
    (pressScans '#').map quietTick

/-! ## Predicates over runs of the polling loop -/

/-- No hazard in any of the loop iterations `ticks` run from state `s`: the gas
line reads high, the test button is not pressed, and the scaled temperature
average computed in the iteration is not above `OVER_TEMP_LEVEL`. -/
def NoHazard : List TickInput → State → Prop
  | [], _ => True
  | inp :: rest, s =>
    inp.mq2 = true ∧ inp.alarmTestButton = false ∧
      (lm35Sample inp.lm35 s).lm35TempC ≤ OVER_TEMP_LEVEL ∧
      NoHazard rest (mainLoopTick inp s)

/-- The alarm is active at the start of each of the loop iterations `ticks` run
from state `s`. -/
def AlarmActiveAtStart : List TickInput → State → Prop
  | [], _ => True
  | inp :: rest, s => s.alarmState = true ∧ AlarmActiveAtStart rest (mainLoopTick inp s)

/-- The invariant of the alarm outputs: an active alarm has a latched detector,
and the blink accumulator is a multiple of 10 below 1000. -/
def LatchInv (s : State) : Prop :=
  (s.alarmState = true → s.gasDetectorState = true ∨ s.overTempDetectorState = true) ∧
    s.accumulatedTimeAlarm % 10 = 0 ∧ s.accumulatedTimeAlarm < 1000

/-- The state in which the polling loop starts after the code 1-8-0 has been
entered on the keypad (`scans180`). -/
def readyState180 : State :=
  (readNewCode scans180 (fun _ => NUL) 0 powerOnState).getD powerOnState

/-! ## Event log and sample buffer: views and runs -/

/-- The variables owned by the event logger: the five "last value" cells, the
write index and the event buffer. -/
def logFields (s : State) : Bool × Bool × Bool × Bool × Bool × Nat × (Nat → systemEvent_t) :=
  (s.alarmLastState, s.gasLastState, s.tempLastState, s.ICLastState, s.SBLastState,
    s.eventsIndex, s.arrayOfStoredEvents)

/-- Successive calls of `systemElementStateUpdate`; each call is given as
`(now, lastState, currentState, elementName)`. -/
def appendRun (calls : List (Nat × Bool × Bool × String)) (s : State) : State :=
  calls.foldl (fun s c => systemElementStateUpdate c.1 c.2.1 c.2.2.1 c.2.2.2 s) s

/-- Number of calls that append a record: those with `lastState ≠ currentState`. -/
def appendCount (calls : List (Nat × Bool × Bool × String)) : Nat :=
  (calls.filter fun c => c.2.1 != c.2.2.1).length

/-- The two statements of `systemElementStateUpdate` that write the buffer:
the record `e` is stored at `eventsIndex`, then the index advances and wraps
at `EVENT_MAX_STORAGE`. -/
def storeEvent (e : systemEvent_t) (s : State) : State :=
  { s with
    arrayOfStoredEvents := Function.update s.arrayOfStoredEvents s.eventsIndex e
    eventsIndex := if s.eventsIndex + 1 ≥ EVENT_MAX_STORAGE then 0 else s.eventsIndex + 1 }

/-- The text `snprintf` writes into `eventStr`. -/
def eventString (elementName : String) (currentState : Bool) : String :=
  (elementName ++ "_" ++ (if currentState then "ON" else "OFF")).take
    (EVENT_NAME_MAX_LENGTH - 1)

/-- The five signals `eventLogUpdate` compares with their stored last values,
in the order ALARM, GAS_DET, OVER_TEMP, LED_IC, LED_SB. -/
def loggedSignals (mq2 : Bool) (s : State) : Bool × Bool × Bool × Bool × Bool :=
  (s.alarmState, !mq2, s.overTempDetector, s.incorrectCodeLed, s.systemBlockedLed)

/-- The five "last value" cells, in the same order. -/
def lastValues (s : State) : Bool × Bool × Bool × Bool × Bool :=
  (s.alarmLastState, s.gasLastState, s.tempLastState, s.ICLastState, s.SBLastState)

/-- The event buffer: write index and stored records. -/
def eventBuffer (s : State) : Nat × (Nat → systemEvent_t) :=
  (s.eventsIndex, s.arrayOfStoredEvents)

/-- Appending the records `es` to the buffer, first to last. -/
def storeAll (es : List systemEvent_t) (s : State) : State :=
  es.foldl (fun s e => storeEvent e s) s

/-- Stated from the specification: the record a signal contributes to the log,
none when its current value equals the stored last value, otherwise one record
labelled with the full text NAME_ON or NAME_OFF according to the current
value. -/
def specEdgeRecord (now : Nat) (last cur : Bool) (name : String) : List systemEvent_t :=
  if last = cur then []
  else [{ seconds := now, typeOfEvent := name ++ "_" ++ (if cur then "ON" else "OFF") }]

/-- Stated from the specification: the records one call of `eventLogUpdate`
appends, one per changed signal in the order ALARM, GAS_DET, OVER_TEMP, LED_IC,
LED_SB. -/
def specChangedEvents (now : Nat) (mq2 : Bool) (s : State) : List systemEvent_t :=
  specEdgeRecord now s.alarmLastState s.alarmState "ALARM" ++
    specEdgeRecord now s.gasLastState (!mq2) "GAS_DET" ++
    specEdgeRecord now s.tempLastState s.overTempDetector "OVER_TEMP" ++
    specEdgeRecord now s.ICLastState s.incorrectCodeLed "LED_IC" ++
    specEdgeRecord now s.SBLastState s.systemBlockedLed "LED_SB"

/-- The state in which `eventLogUpdate` is called in a loop iteration. -/
def preLog (inp : TickInput) (s : State) : State :=
  uartTask inp.uart
    (alarmDeactivationUpdate inp.keypadScan
      (alarmActivationUpdate inp.lm35 inp.mq2 inp.alarmTestButton s))

/-- The logged signals as each call of `eventLogUpdate` finds them, one entry
per loop iteration of `ticks` run from state `s`. -/
def signalsSeen : List TickInput → State → List (Bool × Bool × Bool × Bool × Bool)
  | [], _ => []
  | inp :: rest, s =>
    loggedSignals inp.mq2 (preLog inp s) :: signalsSeen rest (mainLoopTick inp s)

/-- The records appended by the calls `calls` of `systemElementStateUpdate`,
oldest first. -/
def appendedRecords (calls : List (Nat × Bool × Bool × String)) : List systemEvent_t :=
  (calls.filter fun c => c.2.1 != c.2.2.1).map
    fun c => { seconds := c.1, typeOfEvent := eventString c.2.2.2 c.2.2.1 }

/-- Iterations used below: the test button pressed at time 5, and the right
code on the console at time 9. -/
def alarmEdgeTicks : List TickInput :=
  [{ buttonTick with now := 5 }, { quietConsoleTick NUL '1' '8' '0' with now := 9 },
    quietTick NUL]

/-- The calls `calls` of `alarmActivationUpdate` made one after the other from
state `s`; each call is given by its sensor reading, gas line level and button
level. -/
def activationRun (calls : List (ℚ × Bool × Bool)) (s : State) : State :=
  calls.foldl (fun s c => alarmActivationUpdate c.1 c.2.1 c.2.2 s) s

/-- Stated from the specification: the sum of the last `min n 100` of the `n`
samples, divided by 100. -/
def specMeanOfLast (samples : List ℚ) : ℚ :=
  (samples.drop (samples.length - min samples.length NUMBER_OF_AVG_SAMPLES)).sum /
    (NUMBER_OF_AVG_SAMPLES : ℚ)

/-- The sample buffer after the samples `xs` have been stored from the zero
buffer: the index is the count modulo 100, the slots of the last 100 samples
hold them, the slots not yet written hold 0, and the slots add up to the sum of
the last 100 samples. -/
def SampleInv (xs : List ℚ) (s : State) : Prop :=
  s.lm35SampleIndex = xs.length % 100 ∧
  (∀ m, m < xs.length → xs.length ≤ m + 100 → s.lm35ReadingsArray (m % 100) = xs.getD m 0) ∧
  (∀ i, xs.length ≤ i → i < 100 → s.lm35ReadingsArray i = 0) ∧
  ∑ i in Finset.range 100, s.lm35ReadingsArray i = (xs.drop (xs.length - 100)).sum

/-! ## Re-arming after a disarm: run and view -/

/-- A loop iteration in which only the gas line is active: the line reads low,
the sensor reads 0 and the test button is not pressed. -/
def gasTick : TickInput :=
  { lm35 := 0, mq2 := false, alarmTestButton := false, keypadScan := NUL,
    uart := { readable := false, chars := fun _ => NUL }, now := 0 }

/-- The test button pressed for one iteration, then the code 1-8-0 and `#`
entered on the keypad with no hazard present (28 iterations), then twelve
iterations with only the gas line active. -/
def staleLatchTicks : List TickInput :=
  [buttonTick] ++
    (pressScans '1' ++ pressScans '8' ++ pressScans '0' ++ pressScans '#').map quietTick ++
    List.replicate 12 gasTick

/-- The values of `f` in each iteration of the polling loop, in order; `f` is
given the state right after `alarmActivationUpdate` and the state at the end of
the iteration. -/
def activationTrace {α : Type} (f : State → State → α) : List TickInput → State → List α
  | [], _ => []
  | inp :: rest, s =>
    f (alarmActivationUpdate inp.lm35 inp.mq2 inp.alarmTestButton s) (mainLoopTick inp s) ::
      activationTrace f rest (mainLoopTick inp s)

/-- What is observed of an iteration: whether `alarmActivationUpdate` took its
active branch (`alarmState` right after the call), then, at the end of the
iteration, `alarmState`, `incorrectCodeLed`, the two detector latches, the
over-temperature flag, the indicator and the blink accumulator. -/
structure EpisodeView where
  activeBranch : Bool
  alarmState : Bool
  incorrectCodeLed : Bool
  gasDetectorState : Bool
  overTempDetectorState : Bool
  overTempDetector : Bool
  alarmLed : Bool
  accumulatedTimeAlarm : Nat
  deriving DecidableEq

/-- The view of an iteration with state `a` right after `alarmActivationUpdate`
and state `e` at its end. -/
def episodeView (a e : State) : EpisodeView :=
  { activeBranch := a.alarmState, alarmState := e.alarmState,
    incorrectCodeLed := e.incorrectCodeLed, gasDetectorState := e.gasDetectorState,
    overTempDetectorState := e.overTempDetectorState, overTempDetector := e.overTempDetector,
    alarmLed := e.alarmLed, accumulatedTimeAlarm := e.accumulatedTimeAlarm }

/-- Iteration `i + 1` of an episode that started at iteration 1 with both
latches ON and has blinked with period 100 since: the indicator has been
toggled `(i + 1) / 10` times and the accumulator is the rest; `alarmState` is
false at the end of the iteration exactly when `disarmed`. -/
def bothLatchesView (disarmed : Bool) (i : Nat) : EpisodeView :=
  { activeBranch := true, alarmState := !disarmed, incorrectCodeLed := false,
    gasDetectorState := true, overTempDetectorState := true, overTempDetector := false,
    alarmLed := decide ((i + 1) / 10 % 2 = 1), accumulatedTimeAlarm := (i + 1) % 10 * 10 }

/-- The function `main` observed through `f` in each iteration of the polling
loop. -/
def mainActivationTrace {α : Type} (f : State → State → α) (entry : List Char)
    (ticks : List TickInput) : Option (List α) :=
  (readNewCode entry (fun _ => NUL) 0 powerOnState).map (activationTrace f ticks)

/-- The run `staleLatchTicks` with one idle iteration inserted between the
disarming iteration and the first iteration with the gas line active. -/
def idleBeforeGasTicks : List TickInput :=
  [buttonTick] ++
    (pressScans '1' ++ pressScans '8' ++ pressScans '0' ++ pressScans '#').map quietTick ++
    [quietTick NUL] ++ List.replicate 12 gasTick

/-- The state after the test button started an episode and the right code on
the console ended it in the next iteration. -/
def disarmedState : State :=
  mainLoop [buttonTick, quietConsoleTick NUL '1' '8' '0'] readyState180

/-! ## Keypad state machine: one call -/

theorem mku_scanning_key (scan : Char) (s : State)
    (h : s.matrixKeypadState = MATRIX_KEYPAD_SCANNING) (hk : scan ≠ NUL) :
    (matrixKeypadUpdate scan s).1 = NUL ∧
    (matrixKeypadUpdate scan s).2.matrixKeypadState = MATRIX_KEYPAD_DEBOUNCE ∧
    (matrixKeypadUpdate scan s).2.matrixKeypadLastKeyPressed = scan ∧
    (matrixKeypadUpdate scan s).2.accumulatedDebounceMatrixKeypadTime = 0 := by
  simp [matrixKeypadUpdate, h, hk]

theorem mku_scanning_none (s : State)
    (h : s.matrixKeypadState = MATRIX_KEYPAD_SCANNING) :
    matrixKeypadUpdate NUL s = (NUL, s) := by
  simp [matrixKeypadUpdate, h]

theorem mku_debounce (scan : Char) (s : State)
    (h : s.matrixKeypadState = MATRIX_KEYPAD_DEBOUNCE) :
    (matrixKeypadUpdate scan s).1 = NUL ∧
    (matrixKeypadUpdate scan s).2.matrixKeypadLastKeyPressed = s.matrixKeypadLastKeyPressed ∧
    (matrixKeypadUpdate scan s).2.accumulatedDebounceMatrixKeypadTime =
      s.accumulatedDebounceMatrixKeypadTime + 10 ∧
    (matrixKeypadUpdate scan s).2.matrixKeypadState =
      if 40 ≤ s.accumulatedDebounceMatrixKeypadTime then
        if scan = s.matrixKeypadLastKeyPressed then MATRIX_KEYPAD_KEY_HOLD_PRESSED
        else MATRIX_KEYPAD_SCANNING
      else MATRIX_KEYPAD_DEBOUNCE := by
  simp only [matrixKeypadUpdate, h, DEBOUNCE_KEY_TIME_MS, TIME_INCREMENT_MS]
  split_ifs <;> simp [*]

theorem mku_hold (scan : Char) (s : State)
    (h : s.matrixKeypadState = MATRIX_KEYPAD_KEY_HOLD_PRESSED) :
    (matrixKeypadUpdate scan s).1 =
      (if scan = NUL ∧ scan ≠ s.matrixKeypadLastKeyPressed then s.matrixKeypadLastKeyPressed
       else NUL) ∧
    (matrixKeypadUpdate scan s).2.matrixKeypadLastKeyPressed = s.matrixKeypadLastKeyPressed ∧
    (matrixKeypadUpdate scan s).2.matrixKeypadState =
      if scan = s.matrixKeypadLastKeyPressed then MATRIX_KEYPAD_KEY_HOLD_PRESSED
      else MATRIX_KEYPAD_SCANNING := by
  simp only [matrixKeypadUpdate, h]
  split_ifs <;> simp_all

theorem debounce_wait (scans : Nat → Char) (s : State) (a : Nat) (k : Char) (e : Nat)
    (hst : (keypadStateAfter scans s a).matrixKeypadState = MATRIX_KEYPAD_DEBOUNCE)
    (hk : (keypadStateAfter scans s a).matrixKeypadLastKeyPressed = k)
    (he : (keypadStateAfter scans s a).accumulatedDebounceMatrixKeypadTime = e) (m : Nat)
    (hm : e + 10 * m ≤ 40) :
    (keypadStateAfter scans s (a + m)).matrixKeypadState = MATRIX_KEYPAD_DEBOUNCE ∧
    (keypadStateAfter scans s (a + m)).matrixKeypadLastKeyPressed = k ∧
    (keypadStateAfter scans s (a + m)).accumulatedDebounceMatrixKeypadTime = e + 10 * m := by
  induction m with
  | zero => exact ⟨hst, hk, by simpa using he⟩
  | succ m ih =>
    obtain ⟨h1, h2, h3⟩ := ih (by omega)
    obtain ⟨-, g2, g3, g4⟩ := mku_debounce (scans (a + m)) _ h1
    have e1 : keypadStateAfter scans s (a + (m + 1)) =
        (matrixKeypadUpdate (scans (a + m)) (keypadStateAfter scans s (a + m))).2 := rfl
    rw [e1]
    refine ⟨?_, ?_, ?_⟩
    · rw [g4, if_neg (by omega)]
    · rw [g2, h2]
    · rw [g3, h3]; omega

theorem hold_persist (scans : Nat → Char) (s : State) (a : Nat) (k : Char)
    (hst : (keypadStateAfter scans s a).matrixKeypadState = MATRIX_KEYPAD_KEY_HOLD_PRESSED)
    (hk : (keypadStateAfter scans s a).matrixKeypadLastKeyPressed = k) (m : Nat)
    (hs : ∀ j, a ≤ j → j < a + m → scans j = k) :
    (keypadStateAfter scans s (a + m)).matrixKeypadState = MATRIX_KEYPAD_KEY_HOLD_PRESSED ∧
    (keypadStateAfter scans s (a + m)).matrixKeypadLastKeyPressed = k := by
  induction m with
  | zero => exact ⟨hst, hk⟩
  | succ m ih =>
    obtain ⟨h1, h2⟩ := ih (fun j h1 h2 => hs j h1 (by omega))
    obtain ⟨-, g2, g3⟩ := mku_hold (scans (a + m)) _ h1
    have e1 : keypadStateAfter scans s (a + (m + 1)) =
        (matrixKeypadUpdate (scans (a + m)) (keypadStateAfter scans s (a + m))).2 := rfl
    rw [e1]
    refine ⟨?_, ?_⟩
    · rw [g3, if_pos (by rw [h2]; exact hs _ (by omega) (by omega))]
    · rw [g2, h2]

/-! ## C1, C2: debouncer -/

/-- C1 (as stated, refuted): in a run that starts in `MATRIX_KEYPAD_SCANNING`,
(a) key `5` scanned on five consecutive calls, the first made in
`MATRIX_KEYPAD_SCANNING`, which spans the 40-unit threshold, and then no key:
the call that sees no key returns no release; (b) key `5` scanned on six
consecutive calls (a span of 50 units) right after a scan of key `8`, and then
no key: again no release, the machine being in `MATRIX_KEYPAD_DEBOUNCE` for
`8` when `5` is first scanned. -/
theorem threshold_span_not_released :
    (¬ ∀ (scans : Nat → Char) (s : State) (t n : Nat) (k : Char), k ≠ NUL →
        s.matrixKeypadState = MATRIX_KEYPAD_SCANNING →
        (keypadStateAfter scans s t).matrixKeypadState = MATRIX_KEYPAD_SCANNING →
        DEBOUNCE_KEY_TIME_MS ≤ TIME_INCREMENT_MS * (n - 1) →
        (∀ j, t ≤ j → j < t + n → scans j = k) → scans (t + n) = NUL →
        keypadOutput scans s (t + n) = k) ∧
    (¬ ∀ (scans : Nat → Char) (s : State) (t n : Nat) (k : Char), k ≠ NUL →
        s.matrixKeypadState = MATRIX_KEYPAD_SCANNING →
        DEBOUNCE_KEY_TIME_MS + TIME_INCREMENT_MS ≤ TIME_INCREMENT_MS * (n - 1) →
        (∀ j, t ≤ j → j < t + n → scans j = k) → scans (t + n) = NUL →
        keypadOutput scans s (t + n) = k) := by
  constructor
  · intro h
    have h5 := h (scansOfList ['5', '5', '5', '5', '5', NUL]) powerOnState 0 5 '5' (by decide)
      rfl rfl (by decide) (by intro j _ hj; interval_cases j <;> rfl) rfl
    revert h5
    decide
  · intro h
    have h6 := h (scansOfList ['8', '5', '5', '5', '5', '5', '5', NUL]) powerOnState 1 6 '5'
      (by decide) rfl (by decide) (by intro j h1 hj; interval_cases j <;> rfl) rfl
    revert h6
    decide

/-- C1 (amended): when key `k` is scanned on `n` consecutive calls spanning at
least the debounce threshold plus one tick (50 time units, so `n ≥ 6`), the
first of these calls being made in `MATRIX_KEYPAD_SCANNING`, and the next scan
shows no key, that next call returns `k` as the released key. -/
theorem release_after_fifty (scans : Nat → Char) (s : State) (t n : Nat) (k : Char)
    (hk : k ≠ NUL)
    (hst : (keypadStateAfter scans s t).matrixKeypadState = MATRIX_KEYPAD_SCANNING)
    (hn : DEBOUNCE_KEY_TIME_MS + TIME_INCREMENT_MS ≤ TIME_INCREMENT_MS * (n - 1))
    (hs : ∀ j, t ≤ j → j < t + n → scans j = k)
    (hz : scans (t + n) = NUL) :
    keypadOutput scans s (t + n) = k := by
  simp only [DEBOUNCE_KEY_TIME_MS, TIME_INCREMENT_MS] at hn
  have h0 := mku_scanning_key (scans t) _ hst (by rw [hs t (le_refl _) (by omega)]; exact hk)
  have e1 : keypadStateAfter scans s (t + 1) =
      (matrixKeypadUpdate (scans t) (keypadStateAfter scans s t)).2 := rfl
  rw [← e1, hs t (le_refl _) (by omega)] at h0
  obtain ⟨-, a1, a2, a3⟩ := h0
  obtain ⟨b1, b2, b3⟩ := debounce_wait scans s (t + 1) k 0 a1 a2 a3 4 (by omega)
  obtain ⟨-, c2, -, c4⟩ := mku_debounce (scans (t + 1 + 4)) _ b1
  have e2 : keypadStateAfter scans s (t + 1 + 4 + 1) =
      (matrixKeypadUpdate (scans (t + 1 + 4)) (keypadStateAfter scans s (t + 1 + 4))).2 := rfl
  rw [← e2, b3, if_pos (by omega), b2, if_pos (hs _ (by omega) (by omega))] at c4
  rw [← e2, b2] at c2
  obtain ⟨d1, d2⟩ := hold_persist scans s (t + 1 + 4 + 1) k c4 c2 (n - 6)
    (fun j h1 h2 => hs j (by omega) (by omega))
  have e3 : t + 1 + 4 + 1 + (n - 6) = t + n := by omega
  rw [e3] at d1 d2
  obtain ⟨f1, -, -⟩ := mku_hold (scans (t + n)) _ d1
  unfold keypadOutput
  rw [f1, d2, hz, if_pos ⟨rfl, fun h => hk h.symm⟩]

/-- Witness for `release_after_fifty`: six scans of `'5'`, then no key. -/
theorem release_after_fifty_witness :
    (keypadStateAfter (scansOfList ['5', '5', '5', '5', '5', '5', NUL]) powerOnState
        0).matrixKeypadState = MATRIX_KEYPAD_SCANNING ∧
    keypadOutput (scansOfList ['5', '5', '5', '5', '5', '5', NUL]) powerOnState (0 + 6) = '5' :=
  ⟨rfl, release_after_fifty (scansOfList ['5', '5', '5', '5', '5', '5', NUL]) powerOnState 0 6
    '5' (by decide) rfl (by decide) (by intro j _ hj; interval_cases j <;> rfl) rfl⟩

theorem debounceInv_step (scans : Nat → Char) (s : State) (n : Nat)
    (h : DebounceInv scans n (keypadStateAfter scans s n)) :
    DebounceInv scans (n + 1) (keypadStateAfter scans s (n + 1)) := by
  have e1 : keypadStateAfter scans s (n + 1) =
      (matrixKeypadUpdate (scans n) (keypadStateAfter scans s n)).2 := rfl
  rw [e1]
  generalize keypadStateAfter scans s n = u at h ⊢
  cases hu : u.matrixKeypadState with
  | MATRIX_KEYPAD_SCANNING =>
    by_cases hk : scans n = NUL
    · rw [hk, mku_scanning_none u hu]
      simp only [DebounceInv, hu]
    · obtain ⟨-, a1, a2, a3⟩ := mku_scanning_key (scans n) u hu hk
      simp only [DebounceInv, a1, a2, a3]
      exact ⟨hk, by omega, n, by omega, rfl, by omega⟩
  | MATRIX_KEYPAD_DEBOUNCE =>
    simp only [DebounceInv, hu] at h
    obtain ⟨h1, h2, d, h3, h4, h5⟩ := h
    obtain ⟨-, a2, a3, a4⟩ := mku_debounce (scans n) u hu
    by_cases he : 40 ≤ u.accumulatedDebounceMatrixKeypadTime
    · by_cases hs : scans n = u.matrixKeypadLastKeyPressed
      · rw [if_pos he, if_pos hs] at a4
        simp only [DebounceInv, a4, a2]
        refine ⟨h1, d, by omega, h4, ?_⟩
        intro j hj1 hj2
        have : j = n := by omega
        rw [this, hs]
      · rw [if_pos he, if_neg hs] at a4
        simp only [DebounceInv, a4]
    · rw [if_neg he] at a4
      simp only [DebounceInv, a4, a2, a3]
      exact ⟨h1, by omega, d, by omega, h4, by omega⟩
  | MATRIX_KEYPAD_KEY_HOLD_PRESSED =>
    simp only [DebounceInv, hu] at h
    obtain ⟨h1, d, h3, h4, h5⟩ := h
    obtain ⟨-, a2, a3⟩ := mku_hold (scans n) u hu
    by_cases hs : scans n = u.matrixKeypadLastKeyPressed
    · rw [if_pos hs] at a3
      simp only [DebounceInv, a3, a2]
      refine ⟨h1, d, by omega, h4, ?_⟩
      intro j hj1 hj2
      by_cases hjn : j = n
      · rw [hjn, hs]
      · exact h5 j hj1 (by omega)
    · rw [if_neg hs] at a3
      simp only [DebounceInv, a3]

theorem debounceInv_all (scans : Nat → Char) (s : State)
    (h : s.matrixKeypadState = MATRIX_KEYPAD_SCANNING) (n : Nat) :
    DebounceInv scans n (keypadStateAfter scans s n) := by
  induction n with
  | zero => simp only [keypadStateAfter, DebounceInv, h]
  | succ n ih => exact debounceInv_step scans s n ih

theorem confirmed_press_of_release (scans : Nat → Char) (s : State) (i : Nat) (k : Char)
    (hs : s.matrixKeypadState = MATRIX_KEYPAD_SCANNING) (hk : k ≠ NUL)
    (hout : keypadOutput scans s i = k) :
    scans i = NUL ∧ ∃ d, d + 6 ≤ i ∧ scans d = k ∧ ∀ j, d + 5 ≤ j → j < i → scans j = k := by
  have inv := debounceInv_all scans s hs i
  unfold keypadOutput at hout
  generalize keypadStateAfter scans s i = u at inv hout
  cases hu : u.matrixKeypadState with
  | MATRIX_KEYPAD_SCANNING =>
    exfalso
    by_cases hz : scans i = NUL
    · rw [hz, mku_scanning_none u hu] at hout
      exact hk hout.symm
    · exact hk ((mku_scanning_key (scans i) u hu hz).1.symm.trans hout).symm
  | MATRIX_KEYPAD_DEBOUNCE =>
    exact absurd ((mku_debounce (scans i) u hu).1.symm.trans hout).symm hk
  | MATRIX_KEYPAD_KEY_HOLD_PRESSED =>
    simp only [DebounceInv, hu] at inv
    obtain ⟨h1, d, h3, h4, h5⟩ := inv
    have a1 := (mku_hold (scans i) u hu).1
    rw [hout] at a1
    by_cases hc : scans i = NUL ∧ scans i ≠ u.matrixKeypadLastKeyPressed
    · rw [if_pos hc] at a1
      rw [a1]
      exact ⟨hc.1, d, h3, h4, h5⟩
    · rw [if_neg hc] at a1
      exact absurd a1 hk

theorem scansOfList_of_le (l : List Char) (j : Nat) (h : l.length ≤ j) :
    scansOfList l j = NUL := by
  unfold scansOfList
  exact List.getD_eq_default _ _ h

/-- C2 (as stated, refuted): in the run `NUL, '5', NUL, NUL, NUL, NUL, '5', NUL`
from `MATRIX_KEYPAD_SCANNING` every key-present scan stands between two no-key
scans, yet call 7 returns `'5'`; so a returned key need not have been scanned on
the calls just before it disappeared (here not even two calls before), and
single-tick flickers do produce a release. -/
theorem isolated_flickers_release :
    (¬ ∀ (scans : Nat → Char) (s : State) (i : Nat) (k : Char),
        s.matrixKeypadState = MATRIX_KEYPAD_SCANNING → k ≠ NUL →
        keypadOutput scans s i = k → ∀ j, j < i → i ≤ j + 4 → scans j = k) ∧
    (¬ ∀ (scans : Nat → Char) (s : State),
        s.matrixKeypadState = MATRIX_KEYPAD_SCANNING →
        (∀ j, scans j ≠ NUL → scans (j + 1) = NUL ∧ (j = 0 ∨ scans (j - 1) = NUL)) →
        ∀ i, keypadOutput scans s i = NUL) := by
  constructor
  · intro h
    have h5 := h (scansOfList [NUL, '5', NUL, NUL, NUL, NUL, '5', NUL]) powerOnState 7 '5' rfl
      (by decide) (by decide) 5 (by decide) (by decide)
    revert h5
    decide
  · intro h
    have h7 := h (scansOfList [NUL, '5', NUL, NUL, NUL, NUL, '5', NUL]) powerOnState rfl
      (by
        intro j hj
        by_cases hlt : j < 8
        · interval_cases j <;> first | exact absurd rfl hj | decide
        · exact absurd (scansOfList_of_le _ j (by simpa using hlt)) hj) 7
    revert h7
    decide

/-- C2 (amended): in a run that starts in `MATRIX_KEYPAD_SCANNING`, a call `i`
returns a key `k` only if it scans no key, `k` was scanned at a detection call
`d` at least six calls earlier, and `k` was scanned on every call from `d + 5`
(50 time units after detection) up to call `i - 1`; the four scans in between
are never read.  In particular a run in which no key is scanned on two calls
five ticks (50 time units) apart produces no release. -/
theorem release_needs_confirmed_press (scans : Nat → Char) (s : State)
    (hs : s.matrixKeypadState = MATRIX_KEYPAD_SCANNING) :
    (∀ (i : Nat) (k : Char), k ≠ NUL → keypadOutput scans s i = k →
      scans i = NUL ∧
        ∃ d, d + 6 ≤ i ∧ scans d = k ∧ ∀ j, d + 5 ≤ j → j < i → scans j = k) ∧
    ((∀ d, scans d ≠ NUL → scans (d + 5) ≠ scans d) → ∀ i, keypadOutput scans s i = NUL) := by
  refine ⟨fun i k hk hout => confirmed_press_of_release scans s i k hs hk hout, ?_⟩
  intro hfl i
  by_contra hne
  obtain ⟨-, d, h1, h2, h3⟩ :=
    confirmed_press_of_release scans s i (keypadOutput scans s i) hs hne rfl
  exact hfl d (by rw [h2]; exact hne) ((h3 (d + 5) (le_refl _) (by omega)).trans h2.symm)

/-- Witness for `release_needs_confirmed_press`: in the run
`'5', NUL, NUL, NUL, NUL, '5', NUL` call 6 returns `'5'` and scans no key, and in
the run with the single flicker `NUL, '5', NUL` call 2 returns nothing. -/
theorem release_needs_confirmed_press_witness :
    powerOnState.matrixKeypadState = MATRIX_KEYPAD_SCANNING ∧
    keypadOutput (scansOfList ['5', NUL, NUL, NUL, NUL, '5', NUL]) powerOnState 6 = '5' ∧
    scansOfList ['5', NUL, NUL, NUL, NUL, '5', NUL] 6 = NUL ∧
    keypadOutput (scansOfList [NUL, '5', NUL]) powerOnState 2 = NUL :=
  ⟨rfl, by decide,
   ((release_needs_confirmed_press (scansOfList ['5', NUL, NUL, NUL, NUL, '5', NUL])
      powerOnState rfl).1 6 '5' (by decide) (by decide)).1,
   (release_needs_confirmed_press (scansOfList [NUL, '5', NUL]) powerOnState rfl).2 (by
      intro d hd
      by_cases hlt : d < 3
      · interval_cases d <;> first | exact absurd rfl hd | decide
      · exact absurd (scansOfList_of_le _ d (by simpa using hlt)) hd) 2⟩

/-! ## C3: entering the correct code -/

theorem mku_frame (scan : Char) (s : State) :
    (matrixKeypadUpdate scan s).2.alarmState = s.alarmState ∧
    (matrixKeypadUpdate scan s).2.numberOfIncorrectCodes = s.numberOfIncorrectCodes ∧
    (matrixKeypadUpdate scan s).2.incorrectCodeLed = s.incorrectCodeLed ∧
    (matrixKeypadUpdate scan s).2.matrixKeypadCodeIndex = s.matrixKeypadCodeIndex ∧
    (matrixKeypadUpdate scan s).2.codeSequence = s.codeSequence ∧
    (matrixKeypadUpdate scan s).2.keyPressed = s.keyPressed ∧
    (matrixKeypadUpdate scan s).2.numberOfHashKeyReleasedEvents =
      s.numberOfHashKeyReleasedEvents ∧
    (matrixKeypadUpdate scan s).2.systemBlockedLed = s.systemBlockedLed := by
  unfold matrixKeypadUpdate
  cases s.matrixKeypadState <;> simp only <;> split_ifs <;> simp

theorem processKeyReleased_NUL (s : State) : processKeyReleased NUL s = s := by
  have h : NUL ≠ '#' := by decide
  simp [processKeyReleased, h]

theorem processKeyReleased_key (k : Char) (s : State) (h1 : k ≠ NUL) (h2 : k ≠ '#') :
    processKeyReleased k s =
      { s with keyPressed := Function.update s.keyPressed s.matrixKeypadCodeIndex k
               matrixKeypadCodeIndex :=
                 if s.matrixKeypadCodeIndex ≥ NUMBER_OF_KEYS then 0
                 else s.matrixKeypadCodeIndex + 1 } := by
  simp [processKeyReleased, h1, h2]

theorem areEqual_iff (s : State) :
    areEqual s = true ↔ ∀ i, i < NUMBER_OF_KEYS → s.codeSequence i = s.keyPressed i := by
  simp [areEqual, List.all_eq_true]

theorem deactivation_keeps_disarmed (scans : List Char) (s : State)
    (h1 : s.alarmState = false) (h2 : s.numberOfIncorrectCodes = 0) :
    (deactivationRun scans s).alarmState = false ∧
    (deactivationRun scans s).numberOfIncorrectCodes = 0 := by
  induction scans generalizing s with
  | nil => exact ⟨h1, h2⟩
  | cons scan rest ih =>
    have e : deactivationRun (scan :: rest) s =
        deactivationRun rest (alarmDeactivationUpdate scan s) := rfl
    rw [e]
    obtain ⟨f1, f2, -⟩ := mku_frame scan s
    apply ih
    · simp only [alarmDeactivationUpdate, h2, processKeyReleased]
      simp only [Nat.lt_succ_self, Nat.ofNat_pos, if_true]
      split_ifs <;> simp_all
    · simp only [alarmDeactivationUpdate, h2, processKeyReleased]
      simp only [Nat.lt_succ_self, Nat.ofNat_pos, if_true]
      split_ifs <;> simp_all

theorem codeEntry_progress (c : Nat → Char)
    (hc : ∀ i, i < NUMBER_OF_KEYS → c i ≠ NUL ∧ c i ≠ '#') (scans : List Char) :
    ∀ (m : Nat) (s : State), m ≤ 3 → EntryInv c m s →
      releasedKeys scans s = [c 0, c 1, c 2, '#'].drop m →
      (deactivationRun scans s).alarmState = false ∧
      (deactivationRun scans s).numberOfIncorrectCodes = 0 := by
  induction scans with
  | nil =>
    intro m s hm _ hk
    exfalso
    have hl := congrArg List.length hk
    simp [releasedKeys] at hl
    omega
  | cons scan rest ih =>
    intro m s hm hinv hk
    obtain ⟨i1, i2, i3, i4, i5, i6⟩ := hinv
    obtain ⟨f1, f2, f3, f4, f5, f6, -⟩ := mku_frame scan s
    have e : deactivationRun (scan :: rest) s =
        deactivationRun rest (alarmDeactivationUpdate scan s) := rfl
    have ea : alarmDeactivationUpdate scan s =
        processKeyReleased (matrixKeypadUpdate scan s).1 (matrixKeypadUpdate scan s).2 := by
      simp [alarmDeactivationUpdate, i2]
    rw [e]
    simp only [releasedKeys, i2, true_and] at hk
    by_cases hnul : (matrixKeypadUpdate scan s).1 = NUL
    · rw [if_neg (by simp [hnul]), List.nil_append] at hk
      apply ih m _ hm _ hk
      rw [ea, hnul, processKeyReleased_NUL]
      exact ⟨f1.trans i1, by omega, f3.trans i3, f4.trans i4, f5.trans i5,
        fun i hi => by rw [f6]; exact i6 i hi⟩
    · rw [if_pos hnul, List.singleton_append] at hk
      have hm' : m = 0 ∨ m = 1 ∨ m = 2 ∨ m = 3 := by omega
      have hkey : (matrixKeypadUpdate scan s).1 = ([c 0, c 1, c 2, '#'].drop m).headD NUL := by
        rw [← hk]; rfl
      have hrest : releasedKeys rest (alarmDeactivationUpdate scan s) =
          [c 0, c 1, c 2, '#'].drop (m + 1) := by
        have := congrArg List.tail hk
        simpa using this
      by_cases hlt : m < 3
      · have hkm : (matrixKeypadUpdate scan s).1 = c m := by
          rcases hm' with h | h | h | h <;> subst h <;> first | exact hkey | omega
        apply ih (m + 1) _ (by omega) _ hrest
        rw [ea, hkm, processKeyReleased_key _ _ (hc m hlt).1 (hc m hlt).2]
        refine ⟨f1.trans i1, by simp only; omega, f3.trans i3, ?_, f5.trans i5, ?_⟩
        · simp only [f4, i4, NUMBER_OF_KEYS]
          rw [if_neg (by omega)]
        · intro i hi
          show Function.update (matrixKeypadUpdate scan s).2.keyPressed
            (matrixKeypadUpdate scan s).2.matrixKeypadCodeIndex (c m) i = c i
          rw [f4, f6, i4]
          by_cases him : i = m
          · rw [him, Function.update_same]
          · rw [Function.update_noteq him]
            exact i6 i (by omega)
      · have hm3 : m = 3 := by omega
        subst hm3
        have hkm : (matrixKeypadUpdate scan s).1 = '#' := hkey
        have heq : areEqual (matrixKeypadUpdate scan s).2 = true := by
          rw [areEqual_iff]
          intro i hi
          rw [f5, f6, i5]
          exact (i6 i hi).symm
        apply deactivation_keeps_disarmed
        · rw [ea, hkm]
          have h : ('#' : Char) ≠ NUL := by decide
          simp [processKeyReleased, h, f3, i3, f1, i1, heq]
        · rw [ea, hkm]
          have h : ('#' : Char) ≠ NUL := by decide
          simp [processKeyReleased, h, f3, i3, f1, i1, heq]

theorem releasedKeys_locked (scans : List Char) (s : State)
    (h : ¬ s.numberOfIncorrectCodes < 5) : releasedKeys scans s = [] := by
  induction scans generalizing s with
  | nil => rfl
  | cons scan rest ih =>
    have h' : ¬ (alarmDeactivationUpdate scan s).numberOfIncorrectCodes < 5 := by
      simp [alarmDeactivationUpdate, h]
    simp [releasedKeys, h, ih _ h']

/-- C3 (as stated, refuted): two runs of `main` with code 1-8-0 in which the
alarm is active (test button) and the keys `1`, `8`, `0`, `#` are then pressed
and released, seven iterations per key; shown are `alarmState`, the entry cursor
or the incorrect-code indicator, and `numberOfIncorrectCodes` after each
iteration.  In the first run key `5` was released before (cursor 1 when the
code entry starts); in the second a wrong console attempt lit the indicator.
Both end with the alarm active and the counter at 1. -/
theorem correct_digits_not_always_disarm :
    mainTrace (fun s => (s.alarmState, s.matrixKeypadCodeIndex, s.numberOfIncorrectCodes))
        scans180 (buttonTick :: (pressScans '5' ++ scans180).map quietTick) =
      some (List.replicate 7 (true, 0, 0) ++ List.replicate 7 (true, 1, 0) ++
        List.replicate 7 (true, 2, 0) ++ List.replicate 7 (true, 3, 0) ++
        List.replicate 7 (true, 0, 0) ++ [(true, 0, 1)]) ∧
    mainTrace (fun s => (s.alarmState, s.incorrectCodeLed, s.numberOfIncorrectCodes))
        scans180 (consoleTick '0' '0' '0' :: scans180.map quietTick) =
      some (List.replicate 29 (true, true, 1)) := by
  constructor <;> decide!

/-- C3 (amended): from every state with the alarm active, the incorrect-code
indicator off and the entry cursor `matrixKeypadCodeIndex` at 0, a run of
`alarmDeactivationUpdate` calls in which the keys released and processed are
the three digits of `codeSequence` in order followed by `#` ends with
`alarmState` false and `numberOfIncorrectCodes` equal to 0. -/
theorem correct_code_disarms (s : State) (scans : List Char)
    (h1 : s.alarmState = true) (h3 : s.incorrectCodeLed = false)
    (h4 : s.matrixKeypadCodeIndex = 0)
    (hc : ∀ i, i < NUMBER_OF_KEYS → s.codeSequence i ≠ NUL ∧ s.codeSequence i ≠ '#')
    (hk : releasedKeys scans s = [s.codeSequence 0, s.codeSequence 1, s.codeSequence 2, '#']) :
    (deactivationRun scans s).alarmState = false ∧
    (deactivationRun scans s).numberOfIncorrectCodes = 0 := by
  by_cases h2 : s.numberOfIncorrectCodes < 5
  · exact codeEntry_progress s.codeSequence hc scans 0 s (by omega)
      ⟨h1, h2, h3, h4, rfl, fun i hi => absurd hi (by omega)⟩ hk
  · rw [releasedKeys_locked scans s h2] at hk
    exact absurd hk (by simp)

/-- Witness for `correct_code_disarms`: the test button is pressed in the first
loop iteration, then `1`, `8`, `0`, `#` are pressed and released. -/
theorem correct_code_disarms_witness :
    (mainLoopTick buttonTick powerOnState).alarmState = true ∧
    releasedKeys scans180 (mainLoopTick buttonTick powerOnState) = ['1', '8', '0', '#'] ∧
    (deactivationRun scans180 (mainLoopTick buttonTick powerOnState)).alarmState = false ∧
    (deactivationRun scans180 (mainLoopTick buttonTick powerOnState)).numberOfIncorrectCodes
      = 0 :=
  ⟨by decide!, by decide!,
   correct_code_disarms (mainLoopTick buttonTick powerOnState) scans180 (by decide!)
     (by decide!) (by decide!) (by intro i hi; have hi3 : i < 3 := hi; interval_cases i <;> decide!) (by decide!)⟩

/-! ## C4: entering an incorrect code -/

theorem compareLoop_fields (rx : UartRx) (l : List Nat) (s : State) :
    (l.foldl (compareReceivedKey rx) s).alarmState = s.alarmState ∧
    (l.foldl (compareReceivedKey rx) s).numberOfIncorrectCodes = s.numberOfIncorrectCodes ∧
    (l.foldl (compareReceivedKey rx) s).codeSequence = s.codeSequence ∧
    (l.foldl (compareReceivedKey rx) s).systemBlockedLed = s.systemBlockedLed ∧
    ((l.foldl (compareReceivedKey rx) s).incorrectCode = true ↔
      (s.incorrectCode = true ∨ ∃ k, k ∈ l ∧ s.codeSequence k ≠ rx.chars (k + 1))) := by
  induction l generalizing s with
  | nil => simp
  | cons k rest ih =>
    obtain ⟨a1, a2, a3, a4, a5⟩ := ih (compareReceivedKey rx s k)
    have b : (compareReceivedKey rx s k).alarmState = s.alarmState ∧
        (compareReceivedKey rx s k).numberOfIncorrectCodes = s.numberOfIncorrectCodes ∧
        (compareReceivedKey rx s k).codeSequence = s.codeSequence ∧
        (compareReceivedKey rx s k).systemBlockedLed = s.systemBlockedLed ∧
        ((compareReceivedKey rx s k).incorrectCode = true ↔
          (s.incorrectCode = true ∨ s.codeSequence k ≠ rx.chars (k + 1))) := by
      unfold compareReceivedKey
      simp only
      split_ifs with h <;> simp [h]
    obtain ⟨b1, b2, b3, b4, b5⟩ := b
    rw [List.foldl_cons]
    refine ⟨a1.trans b1, a2.trans b2, a3.trans b3, a4.trans b4, ?_⟩
    rw [a5, b5, b3]
    simp only [List.mem_cons, exists_eq_or_imp, or_assoc]

theorem uartTask_cmd4 (rx : UartRx) (s : State) (h1 : rx.readable = true)
    (h2 : rx.chars 0 = '4') :
    ((∀ k, k < NUMBER_OF_KEYS → s.codeSequence k = rx.chars (k + 1)) →
      (uartTask rx s).alarmState = false ∧ (uartTask rx s).incorrectCodeLed = false ∧
      (uartTask rx s).numberOfIncorrectCodes = 0) ∧
    ((∃ k, k < NUMBER_OF_KEYS ∧ s.codeSequence k ≠ rx.chars (k + 1)) →
      (uartTask rx s).alarmState = s.alarmState ∧ (uartTask rx s).incorrectCodeLed = true ∧
      (uartTask rx s).numberOfIncorrectCodes = s.numberOfIncorrectCodes + 1) := by
  obtain ⟨a1, a2, -, -, a5⟩ :=
    compareLoop_fields rx (List.range NUMBER_OF_KEYS) { s with incorrectCode := false }
  simp only [List.mem_range, Bool.false_eq_true, false_or] at a5
  unfold uartTask
  simp only [h1, h2, if_true]
  generalize (List.range NUMBER_OF_KEYS).foldl (compareReceivedKey rx)
    { s with incorrectCode := false } = r at a1 a2 a5
  constructor
  · intro h
    have hf : r.incorrectCode = false := by
      cases hr : r.incorrectCode
      · rfl
      · obtain ⟨k, hk, hne⟩ := a5.mp hr
        exact absurd (h k hk) hne
    simp [hf]
  · intro h
    have hf : r.incorrectCode = true := a5.mpr h
    simp [hf, a1, a2]

theorem processKeyReleased_hash_wrong (s : State) (h1 : s.incorrectCodeLed = false)
    (h2 : s.alarmState = true) (h3 : areEqual s = false) :
    (processKeyReleased '#' s).alarmState = true ∧
    (processKeyReleased '#' s).incorrectCodeLed = true ∧
    (processKeyReleased '#' s).numberOfIncorrectCodes = s.numberOfIncorrectCodes + 1 := by
  have h : ('#' : Char) ≠ NUL := by decide
  simp [processKeyReleased, h, h1, h2, h3]

/-- C4 (as stated, refuted): a run of `main` with code 1-8-0; the test button
starts the alarm and a wrong console attempt lights the incorrect-code
indicator (counter 1); key `#` is then pressed and released while the entered
digits `0 0 0` differ from the code.  Shown are `alarmState`,
`numberOfIncorrectCodes`, `areEqual` and `numberOfHashKeyReleasedEvents` after
each iteration: the last iteration processes the `#` (the acknowledgment count
rises to 1) and leaves the counter at 1. -/
theorem wrong_code_not_always_counted :
    mainTrace (fun s => (s.alarmState, s.numberOfIncorrectCodes, areEqual s,
          s.numberOfHashKeyReleasedEvents))
        scans180 (consoleTick '0' '0' '0' :: (pressScans '#').map quietTick) =
      some (List.replicate 7 (true, 1, false, 0) ++ [(true, 1, false, 1)]) := by
  decide!

/-- C4 (amended): in every state with the alarm active, (a) a terminator `#`
processed by `alarmDeactivationUpdate` (below the lockout limit) while the
incorrect-code indicator is off and the entered digits differ from
`codeSequence`, and (b) console command `4` with three characters that differ
from `codeSequence`, each leave `alarmState` true and increase
`numberOfIncorrectCodes` by exactly 1. -/
theorem incorrect_code_counted (s : State) (h : s.alarmState = true) :
    (∀ scan, s.numberOfIncorrectCodes < 5 → s.incorrectCodeLed = false →
      (matrixKeypadUpdate scan s).1 = '#' → areEqual s = false →
      (alarmDeactivationUpdate scan s).alarmState = true ∧
      (alarmDeactivationUpdate scan s).numberOfIncorrectCodes =
        s.numberOfIncorrectCodes + 1) ∧
    (∀ rx : UartRx, rx.readable = true → rx.chars 0 = '4' →
      (∃ k, k < NUMBER_OF_KEYS ∧ s.codeSequence k ≠ rx.chars (k + 1)) →
      (uartTask rx s).alarmState = true ∧
      (uartTask rx s).numberOfIncorrectCodes = s.numberOfIncorrectCodes + 1) := by
  constructor
  · intro scan h5 hled hkey hne
    obtain ⟨f1, f2, f3, -, f5, f6, -⟩ := mku_frame scan s
    have hne' : areEqual (matrixKeypadUpdate scan s).2 = false := by
      rw [← hne]; unfold areEqual; rw [f5, f6]
    obtain ⟨g1, -, g3⟩ :=
      processKeyReleased_hash_wrong (matrixKeypadUpdate scan s).2 (f3.trans hled)
        (f1.trans h) hne'
    simp only [alarmDeactivationUpdate, h5, if_true, hkey]
    exact ⟨g1, g3.trans (by rw [f2])⟩
  · intro rx h1 h2 hne
    obtain ⟨g1, -, g3⟩ := (uartTask_cmd4 rx s h1 h2).2 hne
    exact ⟨g1.trans h, g3⟩

/-- Witness for `incorrect_code_counted`: alarm started by the test button, key
`#` held on the keypad with entered digits `0 0 0` against code 1-8-0; the
release of `#`, and console command `4` with `0 0 0`, each count one attempt. -/
theorem incorrect_code_counted_witness :
    hashHeldState.alarmState = true ∧ hashHeldState.numberOfIncorrectCodes = 0 ∧
    (alarmDeactivationUpdate NUL hashHeldState).numberOfIncorrectCodes =
      hashHeldState.numberOfIncorrectCodes + 1 ∧
    (uartTask (consoleTick '0' '0' '0').uart hashHeldState).numberOfIncorrectCodes =
      hashHeldState.numberOfIncorrectCodes + 1 :=
  ⟨by decide!, by decide!,
   ((incorrect_code_counted hashHeldState (by decide!)).1 NUL (by decide!) (by decide!)
      (by decide!) (by decide!)).2,
   ((incorrect_code_counted hashHeldState (by decide!)).2 (consoleTick '0' '0' '0').uart
      (by decide!) (by decide!) ⟨0, by decide, by decide!⟩).2⟩

/-! ## Effect of each function on the variables it does not own -/

theorem lm35Sample_frame (r : ℚ) (s : State) :
    (lm35Sample r s).alarmState = s.alarmState ∧
    (lm35Sample r s).gasDetectorState = s.gasDetectorState ∧
    (lm35Sample r s).overTempDetectorState = s.overTempDetectorState ∧
    (lm35Sample r s).accumulatedTimeAlarm = s.accumulatedTimeAlarm ∧
    (lm35Sample r s).alarmLed = s.alarmLed ∧
    (lm35Sample r s).sirenPinMode = s.sirenPinMode := by
  simp [lm35Sample]

theorem latchDetectors_frame (mq2 b : Bool) (s : State) :
    (latchDetectors mq2 b s).accumulatedTimeAlarm = s.accumulatedTimeAlarm ∧
    (latchDetectors mq2 b s).alarmLed = s.alarmLed ∧
    (latchDetectors mq2 b s).sirenPinMode = s.sirenPinMode ∧
    (latchDetectors mq2 b s).overTempDetector = s.overTempDetector := by
  simp only [latchDetectors]
  split_ifs <;> simp

theorem latchDetectors_alarmState (mq2 b : Bool) (s : State) :
    (latchDetectors mq2 b s).alarmState = (s.alarmState || !mq2 || s.overTempDetector || b) ∧
    (latchDetectors mq2 b s).gasDetectorState = (s.gasDetectorState || !mq2 || b) ∧
    (latchDetectors mq2 b s).overTempDetectorState =
      (s.overTempDetectorState || s.overTempDetector || b) := by
  simp only [latchDetectors]
  split_ifs <;> simp_all

theorem alarmOutputs_frame (s : State) :
    (alarmOutputs s).alarmState = s.alarmState ∧
    (alarmOutputs s).overTempDetector = s.overTempDetector := by
  simp only [alarmOutputs]
  split_ifs <;> simp

theorem alarmActivationUpdate_entry_frame (r : ℚ) (mq2 b : Bool) (s : State) :
    (alarmActivationUpdate r mq2 b s).numberOfIncorrectCodes = s.numberOfIncorrectCodes ∧
    (alarmActivationUpdate r mq2 b s).incorrectCodeLed = s.incorrectCodeLed ∧
    (alarmActivationUpdate r mq2 b s).systemBlockedLed = s.systemBlockedLed ∧
    (alarmActivationUpdate r mq2 b s).codeSequence = s.codeSequence ∧
    (alarmActivationUpdate r mq2 b s).keyPressed = s.keyPressed ∧
    (alarmActivationUpdate r mq2 b s).matrixKeypadCodeIndex = s.matrixKeypadCodeIndex ∧
    (alarmActivationUpdate r mq2 b s).matrixKeypadState = s.matrixKeypadState ∧
    (alarmActivationUpdate r mq2 b s).matrixKeypadLastKeyPressed =
      s.matrixKeypadLastKeyPressed ∧
    (alarmActivationUpdate r mq2 b s).accumulatedDebounceMatrixKeypadTime =
      s.accumulatedDebounceMatrixKeypadTime := by
  have h1 : ∀ u : State,
      (alarmOutputs u).numberOfIncorrectCodes = u.numberOfIncorrectCodes ∧
      (alarmOutputs u).incorrectCodeLed = u.incorrectCodeLed ∧
      (alarmOutputs u).systemBlockedLed = u.systemBlockedLed ∧
      (alarmOutputs u).codeSequence = u.codeSequence ∧
      (alarmOutputs u).keyPressed = u.keyPressed ∧
      (alarmOutputs u).matrixKeypadCodeIndex = u.matrixKeypadCodeIndex ∧
      (alarmOutputs u).matrixKeypadState = u.matrixKeypadState ∧
      (alarmOutputs u).matrixKeypadLastKeyPressed = u.matrixKeypadLastKeyPressed ∧
      (alarmOutputs u).accumulatedDebounceMatrixKeypadTime =
        u.accumulatedDebounceMatrixKeypadTime := by
    intro u
    simp only [alarmOutputs]
    split_ifs <;> simp
  have h2 : ∀ u : State,
      (latchDetectors mq2 b u).numberOfIncorrectCodes = u.numberOfIncorrectCodes ∧
      (latchDetectors mq2 b u).incorrectCodeLed = u.incorrectCodeLed ∧
      (latchDetectors mq2 b u).systemBlockedLed = u.systemBlockedLed ∧
      (latchDetectors mq2 b u).codeSequence = u.codeSequence ∧
      (latchDetectors mq2 b u).keyPressed = u.keyPressed ∧
      (latchDetectors mq2 b u).matrixKeypadCodeIndex = u.matrixKeypadCodeIndex ∧
      (latchDetectors mq2 b u).matrixKeypadState = u.matrixKeypadState ∧
      (latchDetectors mq2 b u).matrixKeypadLastKeyPressed = u.matrixKeypadLastKeyPressed ∧
      (latchDetectors mq2 b u).accumulatedDebounceMatrixKeypadTime =
        u.accumulatedDebounceMatrixKeypadTime := by
    intro u
    simp only [latchDetectors]
    split_ifs <;> simp
  obtain ⟨a1, a2, a3, a4, a5, a6, a7, a8, a9⟩ :=
    h1 (latchDetectors mq2 b (lm35Sample r s))
  obtain ⟨b1, b2, b3, b4, b5, b6, b7, b8, b9⟩ := h2 (lm35Sample r s)
  unfold alarmActivationUpdate
  exact ⟨a1.trans b1, a2.trans b2, a3.trans b3, a4.trans b4, a5.trans b5, a6.trans b6,
    a7.trans b7, a8.trans b8, a9.trans b9⟩

theorem alarmActivationUpdate_keeps_alarm (r : ℚ) (mq2 b : Bool) (s : State)
    (h : s.alarmState = true) : (alarmActivationUpdate r mq2 b s).alarmState = true := by
  unfold alarmActivationUpdate
  rw [(alarmOutputs_frame _).1, (latchDetectors_alarmState mq2 b _).1, (lm35Sample_frame r s).1, h]
  rfl

theorem systemElementStateUpdate_frame (now : Nat) (l c : Bool) (name : String) (s : State) :
    (systemElementStateUpdate now l c name s).alarmState = s.alarmState ∧
    (systemElementStateUpdate now l c name s).numberOfIncorrectCodes =
      s.numberOfIncorrectCodes ∧
    (systemElementStateUpdate now l c name s).incorrectCodeLed = s.incorrectCodeLed ∧
    (systemElementStateUpdate now l c name s).systemBlockedLed = s.systemBlockedLed ∧
    (systemElementStateUpdate now l c name s).codeSequence = s.codeSequence ∧
    (systemElementStateUpdate now l c name s).overTempDetector = s.overTempDetector := by
  simp only [systemElementStateUpdate]
  split_ifs <;> simp

theorem eventLogUpdate_frame (now : Nat) (mq2 : Bool) (s : State) :
    (eventLogUpdate now mq2 s).alarmState = s.alarmState ∧
    (eventLogUpdate now mq2 s).numberOfIncorrectCodes = s.numberOfIncorrectCodes ∧
    (eventLogUpdate now mq2 s).incorrectCodeLed = s.incorrectCodeLed ∧
    (eventLogUpdate now mq2 s).systemBlockedLed = s.systemBlockedLed ∧
    (eventLogUpdate now mq2 s).codeSequence = s.codeSequence := by
  simp only [eventLogUpdate, systemElementStateUpdate_frame, and_self]

theorem uartTask_frame (rx : UartRx) (s : State) :
    (uartTask rx s).systemBlockedLed = s.systemBlockedLed ∧
    (uartTask rx s).codeSequence = s.codeSequence := by
  obtain ⟨-, -, a3, a4, -⟩ :=
    compareLoop_fields rx (List.range NUMBER_OF_KEYS) { s with incorrectCode := false }
  unfold uartTask
  generalize (List.range NUMBER_OF_KEYS).foldl (compareReceivedKey rx)
    { s with incorrectCode := false } = r at a3 a4
  by_cases h1 : rx.readable = true <;> by_cases h2 : rx.chars 0 = '4' <;>
    by_cases h3 : rx.chars 0 = '5' <;> cases hr : r.incorrectCode <;>
    simp [h1, h2, h3, hr, a3, a4]

theorem uartTask_alarm_cleared (rx : UartRx) (s : State) (h : s.alarmState = true)
    (h' : (uartTask rx s).alarmState = false) :
    rx.readable = true ∧ rx.chars 0 = '4' ∧
      ∀ k, k < NUMBER_OF_KEYS → s.codeSequence k = rx.chars (k + 1) := by
  by_cases h1 : rx.readable = true
  · by_cases h2 : rx.chars 0 = '4'
    · refine ⟨h1, h2, ?_⟩
      by_contra hne
      push_neg at hne
      obtain ⟨g1, -, -⟩ := (uartTask_cmd4 rx s h1 h2).2 hne
      rw [g1, h] at h'
      exact absurd h' (by simp)
    · exfalso
      have : (uartTask rx s).alarmState = s.alarmState := by
        unfold uartTask
        rw [if_pos h1, if_neg h2]
        split_ifs <;> rfl
      rw [this, h] at h'
      exact absurd h' (by simp)
  · exfalso
    have : uartTask rx s = s := by
      unfold uartTask
      rw [if_neg h1]
    rw [this, h] at h'
    exact absurd h' (by simp)

theorem processKeyReleased_alarm_cleared (k : Char) (s : State) (h : s.alarmState = true)
    (h' : (processKeyReleased k s).alarmState = false) :
    k = '#' ∧ s.incorrectCodeLed = false ∧ areEqual s = true := by
  by_cases hk : k = '#'
  · subst hk
    have hn : ('#' : Char) ≠ NUL := by decide
    simp only [processKeyReleased, hn, ne_eq, not_true_eq_false, and_false, if_false,
      if_true, h] at h'
    refine ⟨rfl, ?_, ?_⟩
    · by_contra hl
      rw [if_pos (by simpa using hl)] at h'
      split_ifs at h'
    · by_contra he
      split_ifs at h'
  · exfalso
    simp only [processKeyReleased, hk, if_false] at h'
    split_ifs at h' <;> simp_all

theorem alarmDeactivationUpdate_alarm_cleared (scan : Char) (s : State)
    (h : s.alarmState = true) (h' : (alarmDeactivationUpdate scan s).alarmState = false) :
    s.numberOfIncorrectCodes < 5 ∧ (matrixKeypadUpdate scan s).1 = '#' ∧
      s.incorrectCodeLed = false ∧ areEqual s = true := by
  obtain ⟨f1, -, f3, -, f5, f6, -⟩ := mku_frame scan s
  by_cases h5 : s.numberOfIncorrectCodes < 5
  · simp only [alarmDeactivationUpdate, h5, if_true] at h'
    obtain ⟨g1, g2, g3⟩ := processKeyReleased_alarm_cleared _ _ (f1.trans h) h'
    refine ⟨h5, g1, f3 ▸ g2, ?_⟩
    rw [← g3]; unfold areEqual; rw [f5, f6]
  · simp only [alarmDeactivationUpdate, h5, if_false] at h'
    rw [h] at h'
    exact absurd h' (by simp)

/-! ## C5, C6, C8: lockout and latching in the polling loop -/

/-- C5 (code evaluated at the failing input): `numberOfIncorrectCodes`,
`systemBlockedLed` and `alarmState` after each iteration of two runs of `main`
with code 1-8-0.  Five wrong console attempts bring the counter to 5 and the
next iteration lights the blocked indicator; console command `4` with the right
code then still disarms and resets the counter to 0, and with a wrong code
still counts a sixth attempt. -/
theorem console_ignores_lockout :
    mainTrace (fun s => (s.numberOfIncorrectCodes, s.systemBlockedLed, s.alarmState))
        scans180 (lockoutTicks ++ [quietConsoleTick NUL '1' '8' '0']) =
      some [(1, false, true), (2, false, true), (3, false, true), (4, false, true),
        (5, false, true), (5, true, true), (0, true, false)] ∧
    mainTrace (fun s => (s.numberOfIncorrectCodes, s.systemBlockedLed, s.alarmState))
        scans180 (lockoutTicks ++ [quietConsoleTick NUL '0' '0' '0']) =
      some [(1, false, true), (2, false, true), (3, false, true), (4, false, true),
        (5, false, true), (5, true, true), (6, true, true)] := by
  constructor <;> decide!

/-- C6 (code evaluated at the failing input): a run of `main` with code
1-8-0: four wrong console attempts, two presses of `#` acknowledging the
indicator, then `#` held and, in iteration 25, released with wrong digits
entered while console command `4` with the right code arrives.  First the
values of `numberOfIncorrectCodes`, `incorrectCodeLed` and `systemBlockedLed`
at the end of each iteration, then `numberOfIncorrectCodes` right after
`alarmDeactivationUpdate` in each iteration: the counter reaches 5 in iteration
25 (fifth incorrect attempt) and the blocked indicator stays off. -/
theorem fifth_attempt_without_blocked_led :
    mainTrace (fun s => (s.numberOfIncorrectCodes, s.incorrectCodeLed, s.systemBlockedLed))
        scans180 (fourFailuresTicks ++ [quietConsoleTick NUL '1' '8' '0'] ++
          (List.replicate 3 NUL).map quietTick) =
      some ([(1, true, false), (2, true, false), (3, true, false)] ++
        List.replicate 14 (4, true, false) ++ List.replicate 7 (4, false, false) ++
        List.replicate 4 (0, false, false)) ∧
    (readNewCode scans180 (fun _ => NUL) 0 powerOnState).map
        (deactivationTrace (fun s => s.numberOfIncorrectCodes)
          (fourFailuresTicks ++ [quietConsoleTick NUL '1' '8' '0'] ++
            (List.replicate 3 NUL).map quietTick)) =
      some ([0, 1, 2, 3] ++ List.replicate 20 4 ++ [5] ++ List.replicate 3 0) := by
  constructor <;> decide!

theorem processKeyReleased_frame (k : Char) (s : State) :
    (processKeyReleased k s).systemBlockedLed = s.systemBlockedLed ∧
    (processKeyReleased k s).codeSequence = s.codeSequence := by
  simp only [processKeyReleased]
  split_ifs <;> simp

theorem alarmDeactivationUpdate_codeSequence (scan : Char) (s : State) :
    (alarmDeactivationUpdate scan s).codeSequence = s.codeSequence := by
  unfold alarmDeactivationUpdate
  split_ifs
  · rw [(processKeyReleased_frame _ _).2, (mku_frame scan s).2.2.2.2.1]
  · rfl

theorem mku_output_congr (scan : Char) (s u : State)
    (h1 : u.matrixKeypadState = s.matrixKeypadState)
    (h2 : u.matrixKeypadLastKeyPressed = s.matrixKeypadLastKeyPressed) :
    (matrixKeypadUpdate scan u).1 = (matrixKeypadUpdate scan s).1 := by
  unfold matrixKeypadUpdate
  rw [h1]
  cases s.matrixKeypadState <;> simp only [h2] <;> split_ifs <;> rfl

theorem tick_alarm_cleared (inp : TickInput) (s : State) (h : s.alarmState = true)
    (h' : (mainLoopTick inp s).alarmState = false) : DisarmSucceeds inp s := by
  unfold mainLoopTick at h'
  rw [(eventLogUpdate_frame _ _ _).1] at h'
  obtain ⟨a1, a2, -, a4, a5, -, a7, a8, -⟩ :=
    alarmActivationUpdate_entry_frame inp.lm35 inp.mq2 inp.alarmTestButton s
  have ha := alarmActivationUpdate_keeps_alarm inp.lm35 inp.mq2 inp.alarmTestButton s h
  by_cases hd : (alarmDeactivationUpdate inp.keypadScan
      (alarmActivationUpdate inp.lm35 inp.mq2 inp.alarmTestButton s)).alarmState = true
  · obtain ⟨g1, g2, g3⟩ := uartTask_alarm_cleared _ _ hd h'
    refine Or.inr ⟨g1, g2, ?_⟩
    intro k hk
    rw [← g3 k hk, alarmDeactivationUpdate_codeSequence, a4]
  · obtain ⟨g1, g2, g3, g4⟩ :=
      alarmDeactivationUpdate_alarm_cleared _ _ ha (by simpa using hd)
    refine Or.inl ⟨a1 ▸ g1, ?_, a2 ▸ g3, ?_⟩
    · rw [← g2]; exact (mku_output_congr _ _ _ a7 a8).symm
    · rw [← g4]; unfold areEqual; rw [a4, a5]

theorem noDisarm_take (ticks : List TickInput) (s : State) (h : NoDisarm ticks s) (n : Nat) :
    NoDisarm (ticks.take n) s := by
  induction ticks generalizing s n with
  | nil => simpa using h
  | cons inp rest ih =>
    cases n with
    | zero => trivial
    | succ n => exact ⟨h.1, ih _ h.2 n⟩

theorem alarm_latched_aux (ticks : List TickInput) (s : State) (h : s.alarmState = true)
    (hno : NoDisarm ticks s) : (mainLoop ticks s).alarmState = true := by
  induction ticks generalizing s with
  | nil => exact h
  | cons inp rest ih =>
    have e : mainLoop (inp :: rest) s = mainLoop rest (mainLoopTick inp s) := rfl
    rw [e]
    apply ih _ _ hno.2
    by_contra hc
    exact hno.1 (tick_alarm_cleared inp s h (by simpa using hc))

/-- C8: in every run of the polling loop that starts with `alarmState` true,
`alarmState` is true after every iteration, whatever the sensor, button, keypad
and serial readings are, as long as no disarm comparison has succeeded (keypad
digits equal to `codeSequence` when `#` is processed, or console command `4`
with three matching characters). -/
theorem alarm_latched_until_disarm (ticks : List TickInput) (s : State)
    (h : s.alarmState = true) (hno : NoDisarm ticks s) (n : Nat) :
    (mainLoop (ticks.take n) s).alarmState = true :=
  alarm_latched_aux _ s h (noDisarm_take ticks s hno n)

/-- Witness for `alarm_latched_until_disarm`: the alarm is started by the gas
line, the line recovers, a key is scanned and a wrong console code arrives. -/
theorem alarm_latched_until_disarm_witness :
    (mainLoopTick { buttonTick with mq2 := false, alarmTestButton := false }
      powerOnState).alarmState = true ∧
    (mainLoop ([quietTick NUL, quietTick '5', quietConsoleTick NUL '1' '8' '1'].take 3)
      (mainLoopTick { buttonTick with mq2 := false, alarmTestButton := false }
        powerOnState)).alarmState = true :=
  ⟨by decide!,
   alarm_latched_until_disarm [quietTick NUL, quietTick '5', quietConsoleTick NUL '1' '8' '1']
     (mainLoopTick { buttonTick with mq2 := false, alarmTestButton := false } powerOnState)
     (by decide!) ⟨by decide!, by decide!, by decide!, trivial⟩ 3⟩

/-! ## C7, C10: alarm outputs -/

theorem alarmOutputs_active (s : State) (h : s.alarmState = true) :
    (alarmOutputs s).gasDetectorState = s.gasDetectorState ∧
    (alarmOutputs s).overTempDetectorState = s.overTempDetectorState ∧
    (alarmOutputs s).sirenPinMode = PinMode.output ∧ (alarmOutputs s).sirenPin = false ∧
    (s.gasDetectorState = true → s.overTempDetectorState = true →
      BlinkStep 100 s (alarmOutputs s)) ∧
    (s.gasDetectorState = true → s.overTempDetectorState = false →
      BlinkStep 1000 s (alarmOutputs s)) ∧
    (s.gasDetectorState = false → s.overTempDetectorState = true →
      BlinkStep 500 s (alarmOutputs s)) := by
  simp only [alarmOutputs, h, if_true, BlinkStep, TIME_INCREMENT_MS,
    BLINKING_TIME_GAS_AND_OVER_TEMP_ALARM, BLINKING_TIME_GAS_ALARM,
    BLINKING_TIME_OVER_TEMP_ALARM]
  cases hg : s.gasDetectorState <;> cases ht : s.overTempDetectorState <;>
    simp <;> split_ifs <;> simp <;> omega

theorem alarmOutputs_inactive (s : State) (h : s.alarmState = false) :
    (alarmOutputs s).alarmLed = false ∧ (alarmOutputs s).gasDetectorState = false ∧
    (alarmOutputs s).overTempDetectorState = false ∧
    (alarmOutputs s).sirenPinMode = PinMode.input ∧
    (alarmOutputs s).accumulatedTimeAlarm = s.accumulatedTimeAlarm := by
  simp [alarmOutputs, h]

/-- C7: when `alarmActivationUpdate` finishes with the alarm active, the
indicator `alarmLed` is toggled and `accumulatedTimeAlarm` reset to 0 exactly
when the accumulated time plus the 10-unit tick is at least the period, and
otherwise the indicator is unchanged (the accumulated time having advanced by
the tick); the period is 100 when both detector states are latched, 1000 when
only `gasDetectorState` is, and 500 when only `overTempDetectorState` is. -/
theorem blink_period_table (r : ℚ) (mq2 b : Bool) (s : State)
    (h : (alarmActivationUpdate r mq2 b s).alarmState = true) :
    ((alarmActivationUpdate r mq2 b s).gasDetectorState = true →
      (alarmActivationUpdate r mq2 b s).overTempDetectorState = true →
      BlinkStep 100 s (alarmActivationUpdate r mq2 b s)) ∧
    ((alarmActivationUpdate r mq2 b s).gasDetectorState = true →
      (alarmActivationUpdate r mq2 b s).overTempDetectorState = false →
      BlinkStep 1000 s (alarmActivationUpdate r mq2 b s)) ∧
    ((alarmActivationUpdate r mq2 b s).gasDetectorState = false →
      (alarmActivationUpdate r mq2 b s).overTempDetectorState = true →
      BlinkStep 500 s (alarmActivationUpdate r mq2 b s)) := by
  unfold alarmActivationUpdate at h ⊢
  rw [(alarmOutputs_frame _).1] at h
  obtain ⟨a1, a2, -, -, a5, a6, a7⟩ := alarmOutputs_active _ h
  obtain ⟨b1, b2, -, -⟩ := latchDetectors_frame mq2 b (lm35Sample r s)
  obtain ⟨-, -, -, c4, c5, -⟩ := lm35Sample_frame r s
  have hacc := b1.trans c4
  have hled := b2.trans c5
  rw [a1, a2]
  simp only [BlinkStep, hacc, hled] at a5 a6 a7
  exact ⟨a5, a6, a7⟩

/-- Witness for `blink_period_table`: the gas line is active on the first
iteration after power-on. -/
theorem blink_period_table_witness :
    (alarmActivationUpdate 0 false false powerOnState).alarmState = true ∧
    (alarmActivationUpdate 0 false false powerOnState).gasDetectorState = true ∧
    (alarmActivationUpdate 0 false false powerOnState).overTempDetectorState = false ∧
    BlinkStep 1000 powerOnState (alarmActivationUpdate 0 false false powerOnState) :=
  ⟨by decide!, by decide!, by decide!,
   (blink_period_table 0 false false powerOnState (by decide!)).2.1 (by decide!) (by decide!)⟩

/-- C10 (as stated, refuted): the alarm is started by the test button and
disarmed from the console one iteration later, with `accumulatedTimeAlarm` at
20; the next `alarmActivationUpdate` finishes with the alarm inactive and
`accumulatedTimeAlarm` still 20. -/
theorem inactive_accumulator_not_reset :
    ((main scans180 [buttonTick, quietConsoleTick NUL '1' '8' '0']).map fun s =>
      (s.alarmState, s.accumulatedTimeAlarm,
        (alarmActivationUpdate 0 true false s).alarmState,
        (alarmActivationUpdate 0 true false s).accumulatedTimeAlarm)) =
      some (false, 20, false, 20) := by
  decide!

/-- C10 (amended): whenever `alarmActivationUpdate` finishes with the alarm
inactive, `alarmLed` is off, both detector latches are cleared, the siren pin is
in input (high-impedance) mode, and `accumulatedTimeAlarm` keeps the value it
had before the call. -/
theorem inactive_reset (r : ℚ) (mq2 b : Bool) (s : State)
    (h : (alarmActivationUpdate r mq2 b s).alarmState = false) :
    (alarmActivationUpdate r mq2 b s).alarmLed = false ∧
    (alarmActivationUpdate r mq2 b s).gasDetectorState = false ∧
    (alarmActivationUpdate r mq2 b s).overTempDetectorState = false ∧
    (alarmActivationUpdate r mq2 b s).sirenPinMode = PinMode.input ∧
    (alarmActivationUpdate r mq2 b s).accumulatedTimeAlarm = s.accumulatedTimeAlarm := by
  unfold alarmActivationUpdate at h ⊢
  rw [(alarmOutputs_frame _).1] at h
  obtain ⟨a1, a2, a3, a4, a5⟩ := alarmOutputs_inactive _ h
  exact ⟨a1, a2, a3, a4,
    a5.trans ((latchDetectors_frame mq2 b _).1.trans (lm35Sample_frame r s).2.2.2.1)⟩

/-- Witness for `inactive_reset`: no hazard on the first iteration after
power-on. -/
theorem inactive_reset_witness :
    (alarmActivationUpdate 0 true false powerOnState).alarmState = false ∧
    (alarmActivationUpdate 0 true false powerOnState).sirenPinMode = PinMode.input ∧
    (alarmActivationUpdate 0 true false powerOnState).accumulatedTimeAlarm =
      powerOnState.accumulatedTimeAlarm :=
  ⟨by decide!, (inactive_reset 0 true false powerOnState (by decide!)).2.2.2.1,
   (inactive_reset 0 true false powerOnState (by decide!)).2.2.2.2⟩

/-! ## C9: code-entry cursor; blocked indicator -/

theorem alarmDeactivationUpdate_locked (scan : Char) (s : State)
    (h : ¬ s.numberOfIncorrectCodes < 5) :
    alarmDeactivationUpdate scan s = { s with systemBlockedLed := true } := by
  simp [alarmDeactivationUpdate, h]

theorem alarmDeactivationUpdate_systemBlockedLed (scan : Char) (s : State) :
    (alarmDeactivationUpdate scan s).systemBlockedLed =
      (s.systemBlockedLed || decide (¬ s.numberOfIncorrectCodes < 5)) := by
  unfold alarmDeactivationUpdate
  split_ifs with h
  · rw [(processKeyReleased_frame _ _).1, (mku_frame scan s).2.2.2.2.2.2.2]
    simp [h]
  · simp [h]

theorem tick_systemBlockedLed (inp : TickInput) (s : State) :
    (mainLoopTick inp s).systemBlockedLed =
      (s.systemBlockedLed || decide (¬ s.numberOfIncorrectCodes < 5)) := by
  unfold mainLoopTick
  obtain ⟨a1, -, a3, -⟩ :=
    alarmActivationUpdate_entry_frame inp.lm35 inp.mq2 inp.alarmTestButton s
  rw [(eventLogUpdate_frame _ _ _).2.2.2.1, (uartTask_frame _ _).1,
    alarmDeactivationUpdate_systemBlockedLed, a1, a3]

theorem systemBlockedLed_persists (ticks : List TickInput) (s : State)
    (h : s.systemBlockedLed = true) : (mainLoop ticks s).systemBlockedLed = true := by
  induction ticks generalizing s with
  | nil => exact h
  | cons inp rest ih =>
    have e : mainLoop (inp :: rest) s = mainLoop rest (mainLoopTick inp s) := rfl
    rw [e]
    apply ih
    rw [tick_systemBlockedLed, h]
    rfl

theorem processKeyReleased_cursor_le (k : Char) (s : State)
    (h : s.matrixKeypadCodeIndex ≤ NUMBER_OF_KEYS) :
    (processKeyReleased k s).matrixKeypadCodeIndex ≤ NUMBER_OF_KEYS := by
  simp only [processKeyReleased, NUMBER_OF_KEYS] at h ⊢
  split_ifs <;> (try dsimp only) <;> omega

/-- C9 (code evaluated at the failing input): a run of `main` in which the
keys `1`, `2`, `3`, `4` are released after start-up, observed through
`matrixKeypadCodeIndex` and the cell at offset 3 of `keyPressed` after each
iteration.  After the third key the cursor is 3, which is not below
`NUMBER_OF_KEYS`, and the fourth key is stored at offset 3, past the last cell
of the 3-element buffer, before the cursor returns to 0. -/
theorem cursor_reaches_buffer_length :
    mainTrace (fun s => (s.matrixKeypadCodeIndex, s.keyPressed 3)) scans180 fourKeysTicks =
      some (List.replicate 6 (0, NUL) ++ List.replicate 7 (1, NUL) ++
        List.replicate 7 (2, NUL) ++ List.replicate 7 (3, NUL) ++ [(0, '4')]) ∧
    ¬ 3 < NUMBER_OF_KEYS := by
  constructor <;> decide!

/-! ## C15, C18: one call of the keypad machine -/

theorem mku_debounce_wait (scan : Char) (s : State)
    (h : s.matrixKeypadState = MATRIX_KEYPAD_DEBOUNCE)
    (he : s.accumulatedDebounceMatrixKeypadTime < DEBOUNCE_KEY_TIME_MS) :
    matrixKeypadUpdate scan s =
      (NUL, { s with accumulatedDebounceMatrixKeypadTime :=
                       s.accumulatedDebounceMatrixKeypadTime + TIME_INCREMENT_MS }) := by
  unfold matrixKeypadUpdate
  split
  · rename_i h'
    rw [h] at h'
    exact absurd h' (by decide)
  · rw [if_neg (by omega)]
  · rename_i h'
    rw [h] at h'
    exact absurd h' (by decide)

/-- C15: `matrixKeypadUpdate` returns a key other than NUL only when the machine
is in `MATRIX_KEYPAD_KEY_HOLD_PRESSED` and the scan shows no key; the returned
key is then `matrixKeypadLastKeyPressed` and the next state is
`MATRIX_KEYPAD_SCANNING`.  It returns NUL on every call made in
`MATRIX_KEYPAD_SCANNING` or `MATRIX_KEYPAD_DEBOUNCE`, and on every call made in
`MATRIX_KEYPAD_KEY_HOLD_PRESSED` on which the same key or another key is
scanned. -/
theorem release_only_reporting (scan : Char) (s : State) :
    ((matrixKeypadUpdate scan s).1 ≠ NUL →
      s.matrixKeypadState = MATRIX_KEYPAD_KEY_HOLD_PRESSED ∧ scan = NUL ∧
      (matrixKeypadUpdate scan s).1 = s.matrixKeypadLastKeyPressed ∧
      (matrixKeypadUpdate scan s).2.matrixKeypadState = MATRIX_KEYPAD_SCANNING) ∧
    (s.matrixKeypadState = MATRIX_KEYPAD_SCANNING → (matrixKeypadUpdate scan s).1 = NUL) ∧
    (s.matrixKeypadState = MATRIX_KEYPAD_DEBOUNCE → (matrixKeypadUpdate scan s).1 = NUL) ∧
    (s.matrixKeypadState = MATRIX_KEYPAD_KEY_HOLD_PRESSED →
      scan = s.matrixKeypadLastKeyPressed ∨ scan ≠ NUL →
      (matrixKeypadUpdate scan s).1 = NUL) := by
  cases hs : s.matrixKeypadState with
  | MATRIX_KEYPAD_SCANNING =>
    have h : (matrixKeypadUpdate scan s).1 = NUL := by
      by_cases hk : scan = NUL
      · rw [hk, mku_scanning_none s hs]
      · exact (mku_scanning_key scan s hs hk).1
    simp [h]
  | MATRIX_KEYPAD_DEBOUNCE =>
    have h := (mku_debounce scan s hs).1
    simp [h]
  | MATRIX_KEYPAD_KEY_HOLD_PRESSED =>
    obtain ⟨h1, -, h3⟩ := mku_hold scan s hs
    refine ⟨?_, by simp, by simp, ?_⟩
    · intro hne
      rw [h1] at hne
      by_cases hc : scan = NUL ∧ scan ≠ s.matrixKeypadLastKeyPressed
      · rw [h1, if_pos hc, h3, if_neg hc.2]
        exact ⟨rfl, hc.1, rfl, rfl⟩
      · rw [if_neg hc] at hne
        exact absurd rfl hne
    · intro _ hc
      rw [h1]
      apply if_neg
      rintro ⟨c1, c2⟩
      rcases hc with hc | hc
      · exact c2 hc
      · exact hc c1

/-- Witness for `release_only_reporting`: in the state with `#` held, a scan
showing no key returns `#`, and a scan showing `5` returns NUL. -/
theorem release_only_reporting_witness :
    (matrixKeypadUpdate NUL hashHeldState).1 ≠ NUL ∧
    hashHeldState.matrixKeypadState = MATRIX_KEYPAD_KEY_HOLD_PRESSED ∧
    (matrixKeypadUpdate NUL hashHeldState).1 = hashHeldState.matrixKeypadLastKeyPressed ∧
    (matrixKeypadUpdate '5' hashHeldState).1 = NUL :=
  ⟨by decide!, by decide!,
   ((release_only_reporting NUL hashHeldState).1 (by decide!)).2.2.1,
   (release_only_reporting '5' hashHeldState).2.2.2 (by decide!) (Or.inr (by decide))⟩

/-- C18: after the call made in `MATRIX_KEYPAD_SCANNING` that detects key `k`
(call `t`), the elapsed time is 0; each of the next four calls returns NUL and
only adds 10 to the elapsed time, whatever its scan shows (the new state does
not depend on the scan); the fifth call is the first made with the elapsed time
at least 40, it moves to `MATRIX_KEYPAD_KEY_HOLD_PRESSED` if its scan equals `k`
and to `MATRIX_KEYPAD_SCANNING` otherwise, and it adds 10 to the elapsed time in
both cases. -/
theorem debounce_timing (scans : Nat → Char) (s : State) (t : Nat) (k : Char)
    (hst : (keypadStateAfter scans s t).matrixKeypadState = MATRIX_KEYPAD_SCANNING)
    (hk : scans t = k) (hne : k ≠ NUL) :
    (keypadStateAfter scans s (t + 1)).matrixKeypadLastKeyPressed = k ∧
    (keypadStateAfter scans s (t + 1)).accumulatedDebounceMatrixKeypadTime = 0 ∧
    (∀ i, 1 ≤ i → i ≤ 4 →
      (keypadStateAfter scans s (t + i)).matrixKeypadState = MATRIX_KEYPAD_DEBOUNCE ∧
      (keypadStateAfter scans s (t + i)).accumulatedDebounceMatrixKeypadTime
        < DEBOUNCE_KEY_TIME_MS ∧
      keypadOutput scans s (t + i) = NUL ∧
      keypadStateAfter scans s (t + i + 1) =
        { keypadStateAfter scans s (t + i) with
            accumulatedDebounceMatrixKeypadTime :=
              (keypadStateAfter scans s (t + i)).accumulatedDebounceMatrixKeypadTime
                + TIME_INCREMENT_MS }) ∧
    (keypadStateAfter scans s (t + 5)).matrixKeypadState = MATRIX_KEYPAD_DEBOUNCE ∧
    (keypadStateAfter scans s (t + 5)).accumulatedDebounceMatrixKeypadTime = 40 ∧
    keypadOutput scans s (t + 5) = NUL ∧
    (keypadStateAfter scans s (t + 6)).matrixKeypadState =
      (if scans (t + 5) = k then MATRIX_KEYPAD_KEY_HOLD_PRESSED
       else MATRIX_KEYPAD_SCANNING) ∧
    (keypadStateAfter scans s (t + 6)).accumulatedDebounceMatrixKeypadTime = 50 := by
  have h0 := mku_scanning_key (scans t) _ hst (by rw [hk]; exact hne)
  have e1 : keypadStateAfter scans s (t + 1) =
      (matrixKeypadUpdate (scans t) (keypadStateAfter scans s t)).2 := rfl
  rw [← e1, hk] at h0
  obtain ⟨-, a1, a2, a3⟩ := h0
  have hw := debounce_wait scans s (t + 1) k 0 a1 a2 a3
  refine ⟨a2, a3, ?_, ?_⟩
  · intro i h1 h4
    obtain ⟨b1, -, b3⟩ := hw (i - 1) (by omega)
    have ei : t + 1 + (i - 1) = t + i := by omega
    rw [ei] at b1 b3
    have hlt : (keypadStateAfter scans s (t + i)).accumulatedDebounceMatrixKeypadTime
        < DEBOUNCE_KEY_TIME_MS := by
      rw [b3]; simp only [DEBOUNCE_KEY_TIME_MS]; omega
    have hstep := mku_debounce_wait (scans (t + i)) _ b1 hlt
    refine ⟨b1, hlt, ?_, ?_⟩
    · unfold keypadOutput; rw [hstep]
    · show (matrixKeypadUpdate (scans (t + i)) (keypadStateAfter scans s (t + i))).2 = _
      rw [hstep]
  · obtain ⟨b1, b2, b3⟩ := hw 4 (by omega)
    have e5 : t + 1 + 4 = t + 5 := by omega
    rw [e5] at b1 b2 b3
    obtain ⟨c1, -, c3, c4⟩ := mku_debounce (scans (t + 5)) _ b1
    have e6 : keypadStateAfter scans s (t + 6) =
        (matrixKeypadUpdate (scans (t + 5)) (keypadStateAfter scans s (t + 5))).2 := rfl
    refine ⟨b1, by rw [b3], c1, ?_, ?_⟩
    · rw [e6, c4, b3, if_pos (by omega), b2]
    · rw [e6, c3, b3]

/-- Witness for `debounce_timing`: key `5` detected at call 0 after power-on,
still scanned at call 5. -/
theorem debounce_timing_witness :
    (keypadStateAfter (scansOfList ['5', NUL, NUL, NUL, NUL, '5']) powerOnState
      0).matrixKeypadState = MATRIX_KEYPAD_SCANNING ∧
    (keypadStateAfter (scansOfList ['5', NUL, NUL, NUL, NUL, '5']) powerOnState
      (0 + 5)).accumulatedDebounceMatrixKeypadTime = 40 ∧
    (keypadStateAfter (scansOfList ['5', NUL, NUL, NUL, NUL, '5']) powerOnState
      (0 + 6)).matrixKeypadState =
      (if scansOfList ['5', NUL, NUL, NUL, NUL, '5'] (0 + 5) = '5' then
        MATRIX_KEYPAD_KEY_HOLD_PRESSED else MATRIX_KEYPAD_SCANNING) :=
  ⟨rfl,
   (debounce_timing (scansOfList ['5', NUL, NUL, NUL, NUL, '5']) powerOnState 0 '5' rfl rfl
     (by decide)).2.2.2.2.1,
   (debounce_timing (scansOfList ['5', NUL, NUL, NUL, NUL, '5']) powerOnState 0 '5' rfl rfl
     (by decide)).2.2.2.2.2.2.1⟩

/-! ## C16, C19: console comparison and terminator acknowledgment -/

theorem uartTask_cmd4_flag (rx : UartRx) (s : State) (h1 : rx.readable = true)
    (h2 : rx.chars 0 = '4') :
    ((uartTask rx s).incorrectCode = false ↔
      ∀ k, k < NUMBER_OF_KEYS → s.codeSequence k = rx.chars (k + 1)) := by
  obtain ⟨-, -, -, -, a5⟩ :=
    compareLoop_fields rx (List.range NUMBER_OF_KEYS) { s with incorrectCode := false }
  simp only [List.mem_range, Bool.false_eq_true, false_or] at a5
  unfold uartTask
  simp only [h1, h2, if_true]
  generalize (List.range NUMBER_OF_KEYS).foldl (compareReceivedKey rx)
    { s with incorrectCode := false } = r at a5
  cases hr : r.incorrectCode
  · simp only [hr, if_true, true_iff]
    intro k hk
    by_contra hne
    have := a5.mpr ⟨k, hk, hne⟩
    rw [hr] at this
    exact absurd this (by simp)
  · obtain ⟨k, hk, hne⟩ := a5.mp hr
    simp only [hr, Bool.true_eq_false, if_false, false_iff]
    intro h
    exact hne (h k hk)

theorem processKeyReleased_hash_right (s : State) (h1 : s.incorrectCodeLed = false)
    (h2 : s.alarmState = true) (h3 : areEqual s = true) :
    (processKeyReleased '#' s).alarmState = false ∧
    (processKeyReleased '#' s).incorrectCodeLed = false ∧
    (processKeyReleased '#' s).numberOfIncorrectCodes = 0 := by
  have h : ('#' : Char) ≠ NUL := by decide
  simp [processKeyReleased, h, h1, h2, h3]

/-- C16: for every state and every three characters received after console
command `4`, the comparison flag `incorrectCode` is false after `uartTask`
(success is reported) exactly when the characters equal `codeSequence` position
by position.  On success `alarmState` is false, `incorrectCodeLed` is off and
`numberOfIncorrectCodes` is 0; on failure `alarmState` is unchanged,
`incorrectCodeLed` is on and `numberOfIncorrectCodes` is one more.  The keypad
comparison (`#` processed with the indicator off and the alarm active) has the
same effect on these three variables. -/
theorem console_disarm (rx : UartRx) (s : State) (h1 : rx.readable = true)
    (h2 : rx.chars 0 = '4') :
    ((uartTask rx s).incorrectCode = false ↔
      ∀ k, k < NUMBER_OF_KEYS → s.codeSequence k = rx.chars (k + 1)) ∧
    ((∀ k, k < NUMBER_OF_KEYS → s.codeSequence k = rx.chars (k + 1)) →
      (uartTask rx s).alarmState = false ∧ (uartTask rx s).incorrectCodeLed = false ∧
      (uartTask rx s).numberOfIncorrectCodes = 0) ∧
    ((∃ k, k < NUMBER_OF_KEYS ∧ s.codeSequence k ≠ rx.chars (k + 1)) →
      (uartTask rx s).alarmState = s.alarmState ∧ (uartTask rx s).incorrectCodeLed = true ∧
      (uartTask rx s).numberOfIncorrectCodes = s.numberOfIncorrectCodes + 1) ∧
    (s.incorrectCodeLed = false → s.alarmState = true → areEqual s = true →
      (processKeyReleased '#' s).alarmState = false ∧
      (processKeyReleased '#' s).incorrectCodeLed = false ∧
      (processKeyReleased '#' s).numberOfIncorrectCodes = 0) ∧
    (s.incorrectCodeLed = false → s.alarmState = true → areEqual s = false →
      (processKeyReleased '#' s).alarmState = s.alarmState ∧
      (processKeyReleased '#' s).incorrectCodeLed = true ∧
      (processKeyReleased '#' s).numberOfIncorrectCodes = s.numberOfIncorrectCodes + 1) :=
  ⟨uartTask_cmd4_flag rx s h1 h2, (uartTask_cmd4 rx s h1 h2).1, (uartTask_cmd4 rx s h1 h2).2,
   processKeyReleased_hash_right s,
   fun a b c => by
     obtain ⟨g1, g2, g3⟩ := processKeyReleased_hash_wrong s a b c
     exact ⟨g1.trans b.symm, g2, g3⟩⟩

/-- Witness for `console_disarm`: the alarm is active with code 1-8-0; console
command `4` with `1 8 0` clears the alarm, and with `1 8 1` counts an attempt. -/
theorem console_disarm_witness :
    (quietConsoleTick NUL '1' '8' '0').uart.readable = true ∧
    (quietConsoleTick NUL '1' '8' '0').uart.chars 0 = '4' ∧
    (uartTask (quietConsoleTick NUL '1' '8' '0').uart hashHeldState).alarmState = false ∧
    (uartTask (quietConsoleTick NUL '1' '8' '1').uart hashHeldState).numberOfIncorrectCodes =
      hashHeldState.numberOfIncorrectCodes + 1 :=
  ⟨rfl, by decide,
   ((console_disarm (quietConsoleTick NUL '1' '8' '0').uart hashHeldState rfl
      (by decide)).2.1 (by intro k hk; have hk3 : k < 3 := hk
                           interval_cases k <;> decide!)).1,
   ((console_disarm (quietConsoleTick NUL '1' '8' '1').uart hashHeldState rfl
      (by decide)).2.2.1 ⟨2, by decide, by decide!⟩).2.2⟩

theorem hash_acknowledgment (s : State) (h : s.incorrectCodeLed = true) :
    (processKeyReleased '#' s).alarmState = s.alarmState ∧
    (processKeyReleased '#' s).numberOfIncorrectCodes = s.numberOfIncorrectCodes ∧
    (s.numberOfHashKeyReleasedEvents = 0 →
      (processKeyReleased '#' s).numberOfHashKeyReleasedEvents = 1 ∧
      (processKeyReleased '#' s).incorrectCodeLed = true ∧
      (processKeyReleased '#' s).matrixKeypadCodeIndex = s.matrixKeypadCodeIndex) ∧
    (1 ≤ s.numberOfHashKeyReleasedEvents →
      (processKeyReleased '#' s).numberOfHashKeyReleasedEvents = 0 ∧
      (processKeyReleased '#' s).incorrectCodeLed = false ∧
      (processKeyReleased '#' s).matrixKeypadCodeIndex = 0) := by
  have hn : ('#' : Char) ≠ NUL := by decide
  simp only [processKeyReleased, hn, ne_eq, not_true_eq_false, and_false, if_false, if_true, h]
  refine ⟨?_, ?_, ?_, ?_⟩
  · split_ifs <;> rfl
  · split_ifs <;> rfl
  · intro h0
    rw [h0]
    simp [h]
  · intro h1
    rw [if_pos (by omega)]
    simp

/-- C19 (code evaluated at the failing input): a run of `main` with code 1-8-0,
observed through `incorrectCodeLed` and `numberOfHashKeyReleasedEvents` after
each iteration.  A wrong console attempt lights the indicator and one `#` brings
the count to 1; a right console attempt then clears the indicator but not the
count; after the next wrong console attempt the first released `#` finds the
count at 1, raises it to 2 and clears the indicator at once. -/
theorem single_hash_clears_indicator :
    mainTrace (fun s => (s.incorrectCodeLed, s.numberOfHashKeyReleasedEvents))
        scans180 staleHashTicks =
      some (List.replicate 7 (true, 0) ++ [(true, 1), (false, 1)] ++
        List.replicate 7 (true, 1) ++ [(false, 0)]) := by
  decide!

/-! ## C11, C17, C20: alarm outputs over runs of the polling loop -/

theorem mku_outputs_frame (scan : Char) (s : State) :
    (matrixKeypadUpdate scan s).2.alarmLed = s.alarmLed ∧
    (matrixKeypadUpdate scan s).2.sirenPinMode = s.sirenPinMode ∧
    (matrixKeypadUpdate scan s).2.gasDetectorState = s.gasDetectorState ∧
    (matrixKeypadUpdate scan s).2.overTempDetectorState = s.overTempDetectorState ∧
    (matrixKeypadUpdate scan s).2.accumulatedTimeAlarm = s.accumulatedTimeAlarm := by
  unfold matrixKeypadUpdate
  cases s.matrixKeypadState <;> simp only <;> split_ifs <;> simp

theorem processKeyReleased_outputs_frame (k : Char) (s : State) :
    (processKeyReleased k s).alarmLed = s.alarmLed ∧
    (processKeyReleased k s).sirenPinMode = s.sirenPinMode ∧
    (processKeyReleased k s).gasDetectorState = s.gasDetectorState ∧
    (processKeyReleased k s).overTempDetectorState = s.overTempDetectorState ∧
    (processKeyReleased k s).accumulatedTimeAlarm = s.accumulatedTimeAlarm ∧
    ((processKeyReleased k s).alarmState = true → s.alarmState = true) := by
  simp only [processKeyReleased]
  split_ifs <;> simp_all

theorem alarmDeactivationUpdate_outputs_frame (scan : Char) (s : State) :
    (alarmDeactivationUpdate scan s).alarmLed = s.alarmLed ∧
    (alarmDeactivationUpdate scan s).sirenPinMode = s.sirenPinMode ∧
    (alarmDeactivationUpdate scan s).gasDetectorState = s.gasDetectorState ∧
    (alarmDeactivationUpdate scan s).overTempDetectorState = s.overTempDetectorState ∧
    (alarmDeactivationUpdate scan s).accumulatedTimeAlarm = s.accumulatedTimeAlarm ∧
    ((alarmDeactivationUpdate scan s).alarmState = true → s.alarmState = true) := by
  obtain ⟨a1, a2, a3, a4, a5⟩ := mku_outputs_frame scan s
  obtain ⟨b1, b2, b3, b4, b5, b6⟩ :=
    processKeyReleased_outputs_frame (matrixKeypadUpdate scan s).1 (matrixKeypadUpdate scan s).2
  unfold alarmDeactivationUpdate
  split_ifs
  · exact ⟨b1.trans a1, b2.trans a2, b3.trans a3, b4.trans a4, b5.trans a5,
      fun h => (mku_frame scan s).1 ▸ b6 h⟩
  · exact ⟨rfl, rfl, rfl, rfl, rfl, fun h => h⟩

theorem compareLoop_outputs_frame (rx : UartRx) (l : List Nat) (s : State) :
    (l.foldl (compareReceivedKey rx) s).alarmLed = s.alarmLed ∧
    (l.foldl (compareReceivedKey rx) s).sirenPinMode = s.sirenPinMode ∧
    (l.foldl (compareReceivedKey rx) s).gasDetectorState = s.gasDetectorState ∧
    (l.foldl (compareReceivedKey rx) s).overTempDetectorState = s.overTempDetectorState ∧
    (l.foldl (compareReceivedKey rx) s).accumulatedTimeAlarm = s.accumulatedTimeAlarm := by
  induction l generalizing s with
  | nil => simp
  | cons k rest ih =>
    obtain ⟨a1, a2, a3, a4, a5⟩ := ih (compareReceivedKey rx s k)
    have b : (compareReceivedKey rx s k).alarmLed = s.alarmLed ∧
        (compareReceivedKey rx s k).sirenPinMode = s.sirenPinMode ∧
        (compareReceivedKey rx s k).gasDetectorState = s.gasDetectorState ∧
        (compareReceivedKey rx s k).overTempDetectorState = s.overTempDetectorState ∧
        (compareReceivedKey rx s k).accumulatedTimeAlarm = s.accumulatedTimeAlarm := by
      unfold compareReceivedKey
      simp only
      split_ifs <;> simp
    obtain ⟨b1, b2, b3, b4, b5⟩ := b
    rw [List.foldl_cons]
    exact ⟨a1.trans b1, a2.trans b2, a3.trans b3, a4.trans b4, a5.trans b5⟩

theorem uartTask_outputs_frame (rx : UartRx) (s : State) :
    (uartTask rx s).alarmLed = s.alarmLed ∧
    (uartTask rx s).sirenPinMode = s.sirenPinMode ∧
    (uartTask rx s).gasDetectorState = s.gasDetectorState ∧
    (uartTask rx s).overTempDetectorState = s.overTempDetectorState ∧
    (uartTask rx s).accumulatedTimeAlarm = s.accumulatedTimeAlarm ∧
    ((uartTask rx s).alarmState = true → s.alarmState = true) := by
  obtain ⟨a1, a2, a3, a4, a5⟩ :=
    compareLoop_outputs_frame rx (List.range NUMBER_OF_KEYS) { s with incorrectCode := false }
  obtain ⟨c1, -⟩ :=
    compareLoop_fields rx (List.range NUMBER_OF_KEYS) { s with incorrectCode := false }
  unfold uartTask
  generalize (List.range NUMBER_OF_KEYS).foldl (compareReceivedKey rx)
    { s with incorrectCode := false } = r at a1 a2 a3 a4 a5 c1
  by_cases h1 : rx.readable = true <;> by_cases h2 : rx.chars 0 = '4' <;>
    by_cases h3 : rx.chars 0 = '5' <;> cases hr : r.incorrectCode <;>
    simp_all

theorem systemElementStateUpdate_outputs_frame (now : Nat) (l c : Bool) (name : String)
    (s : State) :
    (systemElementStateUpdate now l c name s).alarmLed = s.alarmLed ∧
    (systemElementStateUpdate now l c name s).sirenPinMode = s.sirenPinMode ∧
    (systemElementStateUpdate now l c name s).gasDetectorState = s.gasDetectorState ∧
    (systemElementStateUpdate now l c name s).overTempDetectorState =
      s.overTempDetectorState ∧
    (systemElementStateUpdate now l c name s).accumulatedTimeAlarm =
      s.accumulatedTimeAlarm := by
  simp only [systemElementStateUpdate]
  split_ifs <;> simp

theorem eventLogUpdate_outputs_frame (now : Nat) (mq2 : Bool) (s : State) :
    (eventLogUpdate now mq2 s).alarmLed = s.alarmLed ∧
    (eventLogUpdate now mq2 s).sirenPinMode = s.sirenPinMode ∧
    (eventLogUpdate now mq2 s).gasDetectorState = s.gasDetectorState ∧
    (eventLogUpdate now mq2 s).overTempDetectorState = s.overTempDetectorState ∧
    (eventLogUpdate now mq2 s).accumulatedTimeAlarm = s.accumulatedTimeAlarm := by
  simp only [eventLogUpdate, systemElementStateUpdate_outputs_frame, and_self]

theorem tick_outputs (inp : TickInput) (s : State) :
    (mainLoopTick inp s).alarmLed =
      (alarmActivationUpdate inp.lm35 inp.mq2 inp.alarmTestButton s).alarmLed ∧
    (mainLoopTick inp s).sirenPinMode =
      (alarmActivationUpdate inp.lm35 inp.mq2 inp.alarmTestButton s).sirenPinMode ∧
    (mainLoopTick inp s).gasDetectorState =
      (alarmActivationUpdate inp.lm35 inp.mq2 inp.alarmTestButton s).gasDetectorState ∧
    (mainLoopTick inp s).overTempDetectorState =
      (alarmActivationUpdate inp.lm35 inp.mq2 inp.alarmTestButton s).overTempDetectorState ∧
    (mainLoopTick inp s).accumulatedTimeAlarm =
      (alarmActivationUpdate inp.lm35 inp.mq2 inp.alarmTestButton s).accumulatedTimeAlarm ∧
    ((mainLoopTick inp s).alarmState = true →
      (alarmActivationUpdate inp.lm35 inp.mq2 inp.alarmTestButton s).alarmState = true) := by
  unfold mainLoopTick
  obtain ⟨a1, a2, a3, a4, a5⟩ := eventLogUpdate_outputs_frame inp.now inp.mq2
    (uartTask inp.uart (alarmDeactivationUpdate inp.keypadScan
      (alarmActivationUpdate inp.lm35 inp.mq2 inp.alarmTestButton s)))
  obtain ⟨b1, b2, b3, b4, b5, b6⟩ := uartTask_outputs_frame inp.uart
    (alarmDeactivationUpdate inp.keypadScan
      (alarmActivationUpdate inp.lm35 inp.mq2 inp.alarmTestButton s))
  obtain ⟨c1, c2, c3, c4, c5, c6⟩ := alarmDeactivationUpdate_outputs_frame inp.keypadScan
    (alarmActivationUpdate inp.lm35 inp.mq2 inp.alarmTestButton s)
  refine ⟨a1.trans (b1.trans c1), a2.trans (b2.trans c2), a3.trans (b3.trans c3),
    a4.trans (b4.trans c4), a5.trans (b5.trans c5), ?_⟩
  intro h
  rw [(eventLogUpdate_frame _ _ _).1] at h
  exact c6 (b6 h)

theorem lm35Sample_overTemp (r : ℚ) (s : State) :
    (lm35Sample r s).overTempDetector =
      decide ((lm35Sample r s).lm35TempC > OVER_TEMP_LEVEL) := by
  simp [lm35Sample]

theorem alarmActivationUpdate_inactive (r : ℚ) (mq2 b : Bool) (s : State)
    (h : (alarmActivationUpdate r mq2 b s).alarmState = false) :
    (alarmActivationUpdate r mq2 b s).alarmLed = false ∧
    (alarmActivationUpdate r mq2 b s).gasDetectorState = false ∧
    (alarmActivationUpdate r mq2 b s).overTempDetectorState = false ∧
    (alarmActivationUpdate r mq2 b s).sirenPinMode = PinMode.input ∧
    (alarmActivationUpdate r mq2 b s).accumulatedTimeAlarm = s.accumulatedTimeAlarm := by
  unfold alarmActivationUpdate at h ⊢
  rw [(alarmOutputs_frame _).1] at h
  obtain ⟨a1, a2, a3, a4, a5⟩ := alarmOutputs_inactive _ h
  exact ⟨a1, a2, a3, a4,
    a5.trans ((latchDetectors_frame mq2 b _).1.trans (lm35Sample_frame r s).2.2.2.1)⟩

theorem tick_no_hazard (inp : TickInput) (s : State) (h0 : s.alarmState = false)
    (h1 : inp.mq2 = true) (h2 : inp.alarmTestButton = false)
    (h3 : (lm35Sample inp.lm35 s).lm35TempC ≤ OVER_TEMP_LEVEL) :
    (mainLoopTick inp s).alarmState = false ∧ (mainLoopTick inp s).alarmLed = false ∧
    (mainLoopTick inp s).sirenPinMode = PinMode.input := by
  have hot : (lm35Sample inp.lm35 s).overTempDetector = false := by
    rw [lm35Sample_overTemp]
    exact decide_eq_false (not_lt.mpr h3)
  have ha : (alarmActivationUpdate inp.lm35 inp.mq2 inp.alarmTestButton s).alarmState
      = false := by
    unfold alarmActivationUpdate
    rw [(alarmOutputs_frame _).1, (latchDetectors_alarmState _ _ _).1,
      (lm35Sample_frame _ _).1, h0, h1, h2, hot]
    rfl
  obtain ⟨b1, -, -, b4, -⟩ := alarmActivationUpdate_inactive inp.lm35 inp.mq2 inp.alarmTestButton s ha
  obtain ⟨c1, c2, -, -, -, c6⟩ := tick_outputs inp s
  refine ⟨?_, c1.trans b1, c2.trans b4⟩
  by_contra hc
  have := c6 (by simpa using hc)
  rw [ha] at this
  exact absurd this (by simp)

/-- C11: from every state with the alarm inactive (the initial state is one),
in every run of the polling loop in which on every iteration the scaled
temperature average is not above 50, the gas line reads high and the test button
is not pressed, after every iteration `alarmState` is false, `alarmLed` is off
and the siren pin is in input (high-impedance) mode. -/
theorem no_hazard_stays_inactive (ticks : List TickInput) (s : State)
    (h0 : s.alarmState = false) (hq : NoHazard ticks s) (n : Nat) (h1 : 0 < n)
    (h2 : n ≤ ticks.length) :
    (mainLoop (ticks.take n) s).alarmState = false ∧
    (mainLoop (ticks.take n) s).alarmLed = false ∧
    (mainLoop (ticks.take n) s).sirenPinMode = PinMode.input := by
  induction ticks generalizing s n with
  | nil => simp at h2; omega
  | cons inp rest ih =>
    obtain ⟨q1, q2, q3, q4⟩ := hq
    have ht := tick_no_hazard inp s h0 q1 q2 q3
    cases n with
    | zero => omega
    | succ m =>
      have e : mainLoop ((inp :: rest).take (m + 1)) s =
          mainLoop (rest.take m) (mainLoopTick inp s) := rfl
      rw [e]
      cases m with
      | zero => exact ht
      | succ k =>
        exact ih _ ht.1 q4 (k + 1) (by omega) (by simpa using h2)

/-- Witness for `no_hazard_stays_inactive`: two idle iterations after
power-on. -/
theorem no_hazard_stays_inactive_witness :
    powerOnState.alarmState = false ∧
    (mainLoop ([quietTick NUL, quietTick '5'].take 2) powerOnState).alarmState = false ∧
    (mainLoop ([quietTick NUL, quietTick '5'].take 2) powerOnState).alarmLed = false ∧
    (mainLoop ([quietTick NUL, quietTick '5'].take 2) powerOnState).sirenPinMode
      = PinMode.input :=
  ⟨rfl, no_hazard_stays_inactive [quietTick NUL, quietTick '5'] powerOnState rfl
    ⟨rfl, rfl, by decide!, rfl, rfl, by decide!, trivial⟩ 2 (by decide) (by decide)⟩

theorem alarmActivationUpdate_latches (r : ℚ) (mq2 b : Bool) (s : State)
    (h : (alarmActivationUpdate r mq2 b s).alarmState = true) :
    (alarmActivationUpdate r mq2 b s).gasDetectorState = (s.gasDetectorState || !mq2 || b) ∧
    (alarmActivationUpdate r mq2 b s).overTempDetectorState =
      (s.overTempDetectorState || (lm35Sample r s).overTempDetector || b) := by
  unfold alarmActivationUpdate at h ⊢
  rw [(alarmOutputs_frame _).1] at h
  obtain ⟨a1, a2, -⟩ := alarmOutputs_active _ h
  obtain ⟨-, b2, b3⟩ := latchDetectors_alarmState mq2 b (lm35Sample r s)
  obtain ⟨-, c2, c3, -⟩ := lm35Sample_frame r s
  rw [a1, a2, b2, b3, c2, c3]
  exact ⟨rfl, rfl⟩

theorem tick_keeps_latches (inp : TickInput) (s : State) (h : s.alarmState = true) :
    (s.gasDetectorState = true → (mainLoopTick inp s).gasDetectorState = true) ∧
    (s.overTempDetectorState = true → (mainLoopTick inp s).overTempDetectorState = true) := by
  have ha := alarmActivationUpdate_keeps_alarm inp.lm35 inp.mq2 inp.alarmTestButton s h
  obtain ⟨a1, a2⟩ := alarmActivationUpdate_latches inp.lm35 inp.mq2 inp.alarmTestButton s ha
  obtain ⟨-, -, c3, c4, -⟩ := tick_outputs inp s
  constructor
  · intro hg
    rw [c3, a1, hg]
    rfl
  · intro ht
    rw [c4, a2, ht]
    rfl

theorem latch_stays_aux (ticks : List TickInput) (s : State)
    (ha : AlarmActiveAtStart ticks s) :
    (s.gasDetectorState = true → (mainLoop ticks s).gasDetectorState = true) ∧
    (s.overTempDetectorState = true → (mainLoop ticks s).overTempDetectorState = true) := by
  induction ticks generalizing s with
  | nil => exact ⟨fun h => h, fun h => h⟩
  | cons inp rest ih =>
    have e : mainLoop (inp :: rest) s = mainLoop rest (mainLoopTick inp s) := rfl
    rw [e]
    obtain ⟨t1, t2⟩ := tick_keeps_latches inp s ha.1
    obtain ⟨i1, i2⟩ := ih _ ha.2
    exact ⟨fun h => i1 (t1 h), fun h => i2 (t2 h)⟩

theorem alarmActiveAtStart_take (ticks : List TickInput) (s : State)
    (h : AlarmActiveAtStart ticks s) (n : Nat) : AlarmActiveAtStart (ticks.take n) s := by
  induction ticks generalizing s n with
  | nil => simpa using h
  | cons inp rest ih =>
    cases n with
    | zero => trivial
    | succ n => exact ⟨h.1, ih _ h.2 n⟩

/-- C17: in every run of the polling loop in which `alarmState` is true at the
start of each iteration, a detector latch (`gasDetectorState` or
`overTempDetectorState`) that is ON at the start is ON after every iteration,
whatever the gas line, the temperature reading and the button are in those
iterations. -/
theorem latch_stays_on (ticks : List TickInput) (s : State)
    (ha : AlarmActiveAtStart ticks s) (n : Nat) :
    (s.gasDetectorState = true → (mainLoop (ticks.take n) s).gasDetectorState = true) ∧
    (s.overTempDetectorState = true →
      (mainLoop (ticks.take n) s).overTempDetectorState = true) :=
  latch_stays_aux _ s (alarmActiveAtStart_take ticks s ha n)

/-- Witness for `latch_stays_on`: the gas line starts the alarm, then reads
high again for two iterations. -/
theorem latch_stays_on_witness :
    (mainLoopTick { buttonTick with mq2 := false, alarmTestButton := false }
      powerOnState).gasDetectorState = true ∧
    (mainLoop ([quietTick NUL, quietTick NUL].take 2)
      (mainLoopTick { buttonTick with mq2 := false, alarmTestButton := false }
        powerOnState)).gasDetectorState = true :=
  ⟨by decide!,
   (latch_stays_on [quietTick NUL, quietTick NUL]
     (mainLoopTick { buttonTick with mq2 := false, alarmTestButton := false } powerOnState)
     ⟨by decide!, by decide!, trivial⟩ 2).1 (by decide!)⟩

theorem readNewCode_frame (scans : List Char) (newCode : Nat → Char) (idx : Nat)
    (s s' : State) (h : readNewCode scans newCode idx s = some s') :
    s'.alarmState = s.alarmState ∧ s'.gasDetectorState = s.gasDetectorState ∧
    s'.overTempDetectorState = s.overTempDetectorState ∧
    s'.accumulatedTimeAlarm = s.accumulatedTimeAlarm := by
  induction scans generalizing newCode idx s with
  | nil => simp [readNewCode] at h
  | cons scan rest ih =>
    obtain ⟨f1, -⟩ := mku_frame scan s
    obtain ⟨-, -, g3, g4, g5⟩ := mku_outputs_frame scan s
    simp only [readNewCode] at h
    split_ifs at h <;>
      first
      | (simp only [Option.some.injEq] at h
         subst h
         exact ⟨f1, g3, g4, g5⟩)
      | (obtain ⟨a1, a2, a3, a4⟩ := ih _ _ _ h
         exact ⟨a1.trans f1, a2.trans g3, a3.trans g4, a4.trans g5⟩)

theorem alarmActivationUpdate_blink (r : ℚ) (mq2 b : Bool) (s : State)
    (h : (alarmActivationUpdate r mq2 b s).alarmState = true) :
    ((alarmActivationUpdate r mq2 b s).gasDetectorState = true →
      (alarmActivationUpdate r mq2 b s).overTempDetectorState = true →
      BlinkStep 100 s (alarmActivationUpdate r mq2 b s)) ∧
    ((alarmActivationUpdate r mq2 b s).gasDetectorState = true →
      (alarmActivationUpdate r mq2 b s).overTempDetectorState = false →
      BlinkStep 1000 s (alarmActivationUpdate r mq2 b s)) ∧
    ((alarmActivationUpdate r mq2 b s).gasDetectorState = false →
      (alarmActivationUpdate r mq2 b s).overTempDetectorState = true →
      BlinkStep 500 s (alarmActivationUpdate r mq2 b s)) := by
  unfold alarmActivationUpdate at h ⊢
  rw [(alarmOutputs_frame _).1] at h
  obtain ⟨a1, a2, -, -, a5, a6, a7⟩ := alarmOutputs_active _ h
  obtain ⟨b1, b2, -, -⟩ := latchDetectors_frame mq2 b (lm35Sample r s)
  obtain ⟨-, -, -, c4, c5, -⟩ := lm35Sample_frame r s
  have hacc := b1.trans c4
  have hled := b2.trans c5
  rw [a1, a2]
  simp only [BlinkStep, hacc, hled] at a5 a6 a7
  exact ⟨a5, a6, a7⟩

theorem alarmActivationUpdate_latchInv (r : ℚ) (mq2 b : Bool) (s : State) (h : LatchInv s) :
    LatchInv (alarmActivationUpdate r mq2 b s) := by
  obtain ⟨h1, h2, h3⟩ := h
  cases ha : (alarmActivationUpdate r mq2 b s).alarmState with
  | false =>
    obtain ⟨-, -, -, -, a5⟩ := alarmActivationUpdate_inactive r mq2 b s ha
    exact ⟨fun hc => absurd (ha ▸ hc) (by simp), by rw [a5]; exact h2, by rw [a5]; exact h3⟩
  | true =>
    obtain ⟨l1, l2⟩ := alarmActivationUpdate_latches r mq2 b s ha
    have hlatch : (alarmActivationUpdate r mq2 b s).gasDetectorState = true ∨
        (alarmActivationUpdate r mq2 b s).overTempDetectorState = true := by
      have hs : (alarmActivationUpdate r mq2 b s).alarmState =
          (s.alarmState || !mq2 || (lm35Sample r s).overTempDetector || b) := by
        unfold alarmActivationUpdate
        rw [(alarmOutputs_frame _).1, (latchDetectors_alarmState _ _ _).1,
          (lm35Sample_frame _ _).1]
      rw [ha] at hs
      rw [l1, l2]
      cases hsa : s.alarmState
      · rw [hsa] at hs
        generalize (lm35Sample r s).overTempDetector = ot at hs
        cases mq2 <;> cases b <;> cases ot <;> simp at hs ⊢
      · rcases h1 hsa with hg | ht
        · left; rw [hg]; rfl
        · right; rw [ht]; rfl
    obtain ⟨t1, t2, t3⟩ := alarmActivationUpdate_blink r mq2 b s ha
    refine ⟨fun _ => hlatch, ?_⟩
    cases hg : (alarmActivationUpdate r mq2 b s).gasDetectorState <;>
      cases ht : (alarmActivationUpdate r mq2 b s).overTempDetectorState
    · rw [hg, ht] at hlatch
      simp at hlatch
    · obtain ⟨p1, p2⟩ := t3 hg ht
      simp only [TIME_INCREMENT_MS] at p1 p2
      by_cases hp : s.accumulatedTimeAlarm + 10 ≥ 500
      · rw [(p1 hp).2]; omega
      · rw [(p2 (by omega)).2]; omega
    · obtain ⟨p1, p2⟩ := t2 hg ht
      simp only [TIME_INCREMENT_MS] at p1 p2
      by_cases hp : s.accumulatedTimeAlarm + 10 ≥ 1000
      · rw [(p1 hp).2]; omega
      · rw [(p2 (by omega)).2]; omega
    · obtain ⟨p1, p2⟩ := t1 hg ht
      simp only [TIME_INCREMENT_MS] at p1 p2
      by_cases hp : s.accumulatedTimeAlarm + 10 ≥ 100
      · rw [(p1 hp).2]; omega
      · rw [(p2 (by omega)).2]; omega

theorem tick_latchInv (inp : TickInput) (s : State) (h : LatchInv s) :
    LatchInv (mainLoopTick inp s) := by
  obtain ⟨a1, a2, a3⟩ :=
    alarmActivationUpdate_latchInv inp.lm35 inp.mq2 inp.alarmTestButton s h
  obtain ⟨-, -, c3, c4, c5, c6⟩ := tick_outputs inp s
  refine ⟨fun hc => ?_, by rw [c5]; exact a2, by rw [c5]; exact a3⟩
  rw [c3, c4]
  exact a1 (c6 hc)

theorem mainLoop_latchInv (ticks : List TickInput) (s : State) (h : LatchInv s) :
    LatchInv (mainLoop ticks s) := by
  induction ticks generalizing s with
  | nil => exact h
  | cons inp rest ih => exact ih _ (tick_latchInv inp s h)

/-- C20: in every state `s` reached by `main` at the end of an iteration of the
polling loop (or at its start), `alarmState` true implies that
`gasDetectorState` or `overTempDetectorState` is ON, `accumulatedTimeAlarm` is a
multiple of 10 below 1000, and it is so again after the next
`alarmActivationUpdate`, whatever that call reads. -/
theorem reachable_latch_invariant (entry : List Char) (ticks : List TickInput) (s : State)
    (h : main entry ticks = some s) :
    (s.alarmState = true → s.gasDetectorState = true ∨ s.overTempDetectorState = true) ∧
    s.accumulatedTimeAlarm % 10 = 0 ∧ s.accumulatedTimeAlarm < 1000 ∧
    ∀ (r : ℚ) (mq2 b : Bool),
      (alarmActivationUpdate r mq2 b s).accumulatedTimeAlarm % 10 = 0 ∧
      (alarmActivationUpdate r mq2 b s).accumulatedTimeAlarm < 1000 := by
  unfold main at h
  cases h0 : readNewCode entry (fun _ => NUL) 0 powerOnState with
  | none => rw [h0] at h; simp at h
  | some s0 =>
    rw [h0] at h
    simp only [Option.map_some', Option.some.injEq] at h
    obtain ⟨a1, a2, a3, a4⟩ := readNewCode_frame _ _ _ _ _ h0
    have hinv0 : LatchInv s0 := by
      refine ⟨fun hc => ?_, ?_, ?_⟩
      · rw [a1] at hc
        exact absurd hc (by decide)
      · rw [a4]; rfl
      · rw [a4]; exact (by decide : (0 : Nat) < 1000)
    have hinv := mainLoop_latchInv ticks s0 hinv0
    rw [h] at hinv
    refine ⟨hinv.1, hinv.2.1, hinv.2.2, fun r mq2 b => ?_⟩
    exact (alarmActivationUpdate_latchInv r mq2 b s hinv).2

/-- Witness for `reachable_latch_invariant`: code 1-8-0 entered, then one
iteration with the test button pressed. -/
theorem reachable_latch_invariant_witness :
    main scans180 [buttonTick] = some (mainLoop [buttonTick] readyState180) ∧
    (mainLoop [buttonTick] readyState180).alarmState = true ∧
    ((mainLoop [buttonTick] readyState180).gasDetectorState = true ∨
      (mainLoop [buttonTick] readyState180).overTempDetectorState = true) ∧
    (alarmActivationUpdate 0 true false
      (mainLoop [buttonTick] readyState180)).accumulatedTimeAlarm < 1000 :=
  ⟨rfl, by decide!,
   (reachable_latch_invariant scans180 [buttonTick] (mainLoop [buttonTick] readyState180)
     rfl).1 (by decide!),
   ((reachable_latch_invariant scans180 [buttonTick] (mainLoop [buttonTick] readyState180)
     rfl).2.2.2 0 true false).2⟩

/-! ## C12, C13, C14: event log and temperature average -/

theorem alarmActivationUpdate_logFields (r : ℚ) (mq2 b : Bool) (s : State) :
    logFields (alarmActivationUpdate r mq2 b s) = logFields s := by
  have h1 : ∀ u : State, logFields (alarmOutputs u) = logFields u := by
    intro u
    simp only [alarmOutputs, logFields]
    split_ifs <;> rfl
  have h2 : ∀ u : State, logFields (latchDetectors mq2 b u) = logFields u := by
    intro u
    simp only [latchDetectors, logFields]
    split_ifs <;> rfl
  have h3 : logFields (lm35Sample r s) = logFields s := rfl
  unfold alarmActivationUpdate
  rw [h1, h2, h3]

theorem mku_logFields (scan : Char) (s : State) :
    logFields (matrixKeypadUpdate scan s).2 = logFields s := by
  unfold matrixKeypadUpdate
  cases s.matrixKeypadState <;> simp only <;> split_ifs <;> rfl

theorem processKeyReleased_logFields (k : Char) (s : State) :
    logFields (processKeyReleased k s) = logFields s := by
  simp only [processKeyReleased, logFields]
  split_ifs <;> rfl

theorem alarmDeactivationUpdate_logFields (scan : Char) (s : State) :
    logFields (alarmDeactivationUpdate scan s) = logFields s := by
  unfold alarmDeactivationUpdate
  split_ifs
  · rw [processKeyReleased_logFields, mku_logFields]
  · rfl

theorem compareLoop_logFields (rx : UartRx) (l : List Nat) (s : State) :
    logFields (l.foldl (compareReceivedKey rx) s) = logFields s := by
  induction l generalizing s with
  | nil => rfl
  | cons k rest ih =>
    have b : logFields (compareReceivedKey rx s k) = logFields s := by
      unfold compareReceivedKey
      simp only
      split_ifs <;> rfl
    rw [List.foldl_cons, ih, b]

theorem uartTask_logFields (rx : UartRx) (s : State) :
    logFields (uartTask rx s) = logFields s := by
  have a := compareLoop_logFields rx (List.range NUMBER_OF_KEYS) { s with incorrectCode := false }
  unfold uartTask
  generalize (List.range NUMBER_OF_KEYS).foldl (compareReceivedKey rx)
    { s with incorrectCode := false } = r at a
  have a' : logFields r = logFields s := a
  simp only [logFields] at a' ⊢
  split_ifs <;> first | rfl | exact a'

theorem readNewCode_logFields (scans : List Char) (newCode : Nat → Char) (idx : Nat)
    (s s' : State) (h : readNewCode scans newCode idx s = some s') :
    logFields s' = logFields s := by
  induction scans generalizing newCode idx s with
  | nil => simp [readNewCode] at h
  | cons scan rest ih =>
    have f := mku_logFields scan s
    simp only [readNewCode] at h
    split_ifs at h <;>
      first
      | (simp only [Option.some.injEq] at h
         subst h
         exact f)
      | exact (ih _ _ _ h).trans f

theorem systemElementStateUpdate_eq (now : Nat) (l c : Bool) (name : String) (s : State) :
    systemElementStateUpdate now l c name s =
      if l = c then s
      else storeEvent { seconds := now, typeOfEvent := eventString name c } s := by
  simp only [systemElementStateUpdate, storeEvent, eventString]
  split_ifs <;> rfl

theorem storeEvent_fields (e : systemEvent_t) (s : State) :
    (storeEvent e s).arrayOfStoredEvents = Function.update s.arrayOfStoredEvents s.eventsIndex e ∧
    (storeEvent e s).eventsIndex =
      (if s.eventsIndex + 1 ≥ EVENT_MAX_STORAGE then 0 else s.eventsIndex + 1) ∧
    (storeEvent e s).alarmLastState = s.alarmLastState ∧
    (storeEvent e s).gasLastState = s.gasLastState ∧
    (storeEvent e s).tempLastState = s.tempLastState ∧
    (storeEvent e s).ICLastState = s.ICLastState ∧
    (storeEvent e s).SBLastState = s.SBLastState :=
  ⟨rfl, rfl, rfl, rfl, rfl, rfl, rfl⟩

theorem systemElementStateUpdate_index (now : Nat) (l c : Bool) (name : String) (s : State)
    (h : s.eventsIndex < EVENT_MAX_STORAGE) :
    (systemElementStateUpdate now l c name s).eventsIndex =
      (s.eventsIndex + if l = c then 0 else 1) % EVENT_MAX_STORAGE ∧
    (l ≠ c → (systemElementStateUpdate now l c name s).arrayOfStoredEvents s.eventsIndex =
      { seconds := now, typeOfEvent := eventString name c }) := by
  rw [systemElementStateUpdate_eq]
  simp only [EVENT_MAX_STORAGE] at h ⊢
  by_cases hlc : l = c
  · simp only [hlc, if_true, Nat.add_zero]
    exact ⟨(Nat.mod_eq_of_lt h).symm, fun hne => absurd rfl hne⟩
  · obtain ⟨a1, a2, -⟩ := storeEvent_fields { seconds := now, typeOfEvent := eventString name c } s
    simp only [hlc, if_false, a1, a2, EVENT_MAX_STORAGE]
    constructor
    · split_ifs with h100
      · have : s.eventsIndex + 1 = 100 := by omega
        rw [this]
      · rw [Nat.mod_eq_of_lt (by omega)]
    · intro _
      simp

theorem appendRun_index (calls : List (Nat × Bool × Bool × String)) (s : State)
    (h : s.eventsIndex < EVENT_MAX_STORAGE) :
    (appendRun calls s).eventsIndex =
      (s.eventsIndex + appendCount calls) % EVENT_MAX_STORAGE := by
  induction calls generalizing s with
  | nil =>
    simp only [appendRun, appendCount, List.foldl_nil, List.filter_nil, List.length_nil,
      Nat.add_zero]
    exact (Nat.mod_eq_of_lt h).symm
  | cons c rest ih =>
    obtain ⟨a1, -⟩ := systemElementStateUpdate_index c.1 c.2.1 c.2.2.1 c.2.2.2 s h
    have e : appendRun (c :: rest) s =
        appendRun rest (systemElementStateUpdate c.1 c.2.1 c.2.2.1 c.2.2.2 s) := rfl
    have hlt : (systemElementStateUpdate c.1 c.2.1 c.2.2.1 c.2.2.2 s).eventsIndex
        < EVENT_MAX_STORAGE := by
      rw [a1]; exact Nat.mod_lt _ (by decide)
    rw [e, ih _ hlt, a1]
    simp only [appendCount, List.filter_cons, EVENT_MAX_STORAGE]
    by_cases hlc : c.2.1 = c.2.2.1
    · simp [hlc]
    · simp only [hlc, if_false, bne_iff_ne, ne_eq, not_false_eq_true, decide_True, if_true,
        List.length_cons]
      omega

theorem eventString_names (c : Bool) :
    eventString "ALARM" c = "ALARM" ++ "_" ++ (if c then "ON" else "OFF") ∧
    eventString "GAS_DET" c = "GAS_DET" ++ "_" ++ (if c then "ON" else "OFF") ∧
    eventString "OVER_TEMP" c = "OVER_TEMP" ++ "_" ++ (if c then "ON" else "OFF") ∧
    eventString "LED_IC" c = "LED_IC" ++ "_" ++ (if c then "ON" else "OFF") ∧
    eventString "LED_SB" c = "LED_SB" ++ "_" ++ (if c then "ON" else "OFF") := by
  cases c <;> decide

theorem storeAll_edgeRecord (now : Nat) (l c : Bool) (name : String) (s : State)
    (h : eventString name c = name ++ "_" ++ (if c then "ON" else "OFF")) :
    storeAll (specEdgeRecord now l c name) s = systemElementStateUpdate now l c name s := by
  rw [systemElementStateUpdate_eq, h]
  unfold specEdgeRecord storeAll
  split_ifs <;> rfl

theorem systemElementStateUpdate_log (now : Nat) (l c : Bool) (name : String) (s : State) :
    (systemElementStateUpdate now l c name s).alarmLastState = s.alarmLastState ∧
    (systemElementStateUpdate now l c name s).gasLastState = s.gasLastState ∧
    (systemElementStateUpdate now l c name s).tempLastState = s.tempLastState ∧
    (systemElementStateUpdate now l c name s).ICLastState = s.ICLastState ∧
    (systemElementStateUpdate now l c name s).SBLastState = s.SBLastState ∧
    (systemElementStateUpdate now l c name s).eventsIndex =
      (if l = c then s.eventsIndex
       else if s.eventsIndex + 1 ≥ EVENT_MAX_STORAGE then 0 else s.eventsIndex + 1) ∧
    (systemElementStateUpdate now l c name s).arrayOfStoredEvents =
      (if l = c then s.arrayOfStoredEvents
       else Function.update s.arrayOfStoredEvents s.eventsIndex
         { seconds := now, typeOfEvent := eventString name c }) := by
  rw [systemElementStateUpdate_eq]
  by_cases hlc : l = c
  · simp only [hlc, if_true, and_self]
  · simp only [hlc, if_false]
    exact ⟨rfl, rfl, rfl, rfl, rfl, rfl, rfl⟩

theorem storeAll_changedEvents (now : Nat) (mq2 : Bool) (s : State) :
    storeAll (specChangedEvents now mq2 s) s =
      systemElementStateUpdate now s.SBLastState s.systemBlockedLed "LED_SB"
        (systemElementStateUpdate now s.ICLastState s.incorrectCodeLed "LED_IC"
          (systemElementStateUpdate now s.tempLastState s.overTempDetector "OVER_TEMP"
            (systemElementStateUpdate now s.gasLastState (!mq2) "GAS_DET"
              (systemElementStateUpdate now s.alarmLastState s.alarmState "ALARM" s)))) := by
  have a : ∀ (l1 l2 : List systemEvent_t) (u : State),
      storeAll (l1 ++ l2) u = storeAll l2 (storeAll l1 u) := fun l1 l2 u => List.foldl_append _ _ _ _
  unfold specChangedEvents
  rw [a, a, a, a, storeAll_edgeRecord _ _ _ _ _ (eventString_names _).1,
    storeAll_edgeRecord _ _ _ _ _ (eventString_names _).2.1,
    storeAll_edgeRecord _ _ _ _ _ (eventString_names _).2.2.1,
    storeAll_edgeRecord _ _ _ _ _ (eventString_names _).2.2.2.1,
    storeAll_edgeRecord _ _ _ _ _ (eventString_names _).2.2.2.2]

theorem eventLogUpdate_log (now : Nat) (mq2 : Bool) (s : State) :
    lastValues (eventLogUpdate now mq2 s) = loggedSignals mq2 s ∧
    eventBuffer (eventLogUpdate now mq2 s) =
      eventBuffer (storeAll (specChangedEvents now mq2 s) s) := by
  rw [storeAll_changedEvents]
  constructor
  · simp only [lastValues, loggedSignals, eventLogUpdate, systemElementStateUpdate_frame,
      systemElementStateUpdate_log]
  · simp only [eventBuffer, eventLogUpdate, systemElementStateUpdate_frame,
      systemElementStateUpdate_log]

theorem preLog_logFields (inp : TickInput) (s : State) :
    logFields (preLog inp s) = logFields s := by
  unfold preLog
  rw [uartTask_logFields, alarmDeactivationUpdate_logFields, alarmActivationUpdate_logFields]

theorem logFields_split (s t : State) (h : logFields s = logFields t) :
    lastValues s = lastValues t ∧ eventBuffer s = eventBuffer t := by
  simp only [logFields, Prod.mk.injEq] at h
  obtain ⟨h1, h2, h3, h4, h5, h6, h7⟩ := h
  simp only [lastValues, eventBuffer, h1, h2, h3, h4, h5, h6, h7, and_self]

theorem storeAll_buffer (es : List systemEvent_t) (s t : State)
    (h : eventBuffer s = eventBuffer t) :
    eventBuffer (storeAll es s) = eventBuffer (storeAll es t) := by
  induction es generalizing s t with
  | nil => exact h
  | cons e rest ih =>
    apply ih
    simp only [eventBuffer, Prod.mk.injEq] at h
    simp only [eventBuffer, storeEvent, h.1, h.2]

theorem storeAll_index_lt (es : List systemEvent_t) (s : State)
    (h : s.eventsIndex < EVENT_MAX_STORAGE) :
    (storeAll es s).eventsIndex < EVENT_MAX_STORAGE := by
  induction es generalizing s with
  | nil => exact h
  | cons e rest ih =>
    apply ih
    simp only [storeEvent, EVENT_MAX_STORAGE]
    split_ifs <;> omega

theorem tick_log (inp : TickInput) (s : State) :
    lastValues (mainLoopTick inp s) = loggedSignals inp.mq2 (preLog inp s) ∧
    eventBuffer (mainLoopTick inp s) =
      eventBuffer (storeAll (specChangedEvents inp.now inp.mq2 (preLog inp s)) s) := by
  obtain ⟨a1, a2⟩ := eventLogUpdate_log inp.now inp.mq2 (preLog inp s)
  exact ⟨a1, a2.trans (storeAll_buffer _ _ _ (logFields_split _ _ (preLog_logFields inp s)).2)⟩

theorem changedEvents_alarm_only (now : Nat) (mq2 : Bool) (p : State) (a c g t i b : Bool)
    (h1 : lastValues p = (a, g, t, i, b)) (h2 : loggedSignals mq2 p = (c, g, t, i, b)) :
    specChangedEvents now mq2 p = specEdgeRecord now a c "ALARM" := by
  simp only [lastValues, Prod.mk.injEq] at h1
  simp only [loggedSignals, Prod.mk.injEq] at h2
  obtain ⟨x1, x2, x3, x4, x5⟩ := h1
  obtain ⟨y1, y2, y3, y4, y5⟩ := h2
  unfold specChangedEvents
  rw [x1, x2, x3, x4, x5, y1, y2, y3, y4, y5]
  simp only [specEdgeRecord, if_true, List.append_nil]

theorem tick_index_lt (inp : TickInput) (s : State) (h : s.eventsIndex < EVENT_MAX_STORAGE) :
    (mainLoopTick inp s).eventsIndex < EVENT_MAX_STORAGE := by
  have a := (tick_log inp s).2
  simp only [eventBuffer, Prod.mk.injEq] at a
  rw [a.1]
  exact storeAll_index_lt _ _ h

theorem mainLoop_index_lt (ticks : List TickInput) (s : State)
    (h : s.eventsIndex < EVENT_MAX_STORAGE) :
    (mainLoop ticks s).eventsIndex < EVENT_MAX_STORAGE := by
  induction ticks generalizing s with
  | nil => exact h
  | cons inp rest ih => exact ih _ (tick_index_lt inp s h)

theorem main_index_lt (entry : List Char) (ticks : List TickInput) (s : State)
    (h : main entry ticks = some s) : s.eventsIndex < EVENT_MAX_STORAGE := by
  unfold main at h
  cases h0 : readNewCode entry (fun _ => NUL) 0 powerOnState with
  | none => rw [h0] at h; simp at h
  | some s0 =>
    rw [h0] at h
    simp only [Option.map_some', Option.some.injEq] at h
    have a := readNewCode_logFields _ _ _ _ _ h0
    simp only [logFields, Prod.mk.injEq] at a
    rw [← h]
    apply mainLoop_index_lt
    rw [a.2.2.2.2.2.1]
    decide

theorem appendedRecords_length (calls : List (Nat × Bool × Bool × String)) :
    (appendedRecords calls).length = appendCount calls := by
  simp only [appendedRecords, appendCount, List.length_map]

theorem appendRun_snoc (pre : List (Nat × Bool × Bool × String))
    (c : Nat × Bool × Bool × String) (s : State) :
    appendRun (pre ++ [c]) s =
      systemElementStateUpdate c.1 c.2.1 c.2.2.1 c.2.2.2 (appendRun pre s) := by
  simp only [appendRun, List.foldl_append, List.foldl_cons, List.foldl_nil]

theorem appendRun_retains (pre : List (Nat × Bool × Bool × String)) (s : State)
    (h0 : s.eventsIndex = 0) (m : Nat) (e : systemEvent_t)
    (hm : (appendedRecords pre)[m]? = some e) (hn : appendCount pre ≤ m + EVENT_MAX_STORAGE) :
    (appendRun pre s).arrayOfStoredEvents (m % EVENT_MAX_STORAGE) = e := by
  induction pre using List.reverseRecOn generalizing m e with
  | nil => simp [appendedRecords] at hm
  | append_singleton pre c ih =>
    have hidx := appendRun_index pre s (by rw [h0]; decide)
    rw [h0, Nat.zero_add] at hidx
    have hlt : (appendRun pre s).eventsIndex < EVENT_MAX_STORAGE := by
      rw [hidx]; exact Nat.mod_lt _ (by decide)
    obtain ⟨-, -, -, -, -, -, a2⟩ :=
      systemElementStateUpdate_log c.1 c.2.1 c.2.2.1 c.2.2.2 (appendRun pre s)
    rw [appendRun_snoc, a2]
    by_cases hlc : c.2.1 = c.2.2.1
    · have e1 : appendedRecords (pre ++ [c]) = appendedRecords pre := by
        simp [appendedRecords, List.filter_append, hlc]
      have e2 : appendCount (pre ++ [c]) = appendCount pre := by
        rw [← appendedRecords_length, e1, appendedRecords_length]
      rw [e1] at hm
      rw [e2] at hn
      rw [if_pos hlc]
      exact ih m e hm hn
    · have e1 : appendedRecords (pre ++ [c]) = appendedRecords pre ++
          [{ seconds := c.1, typeOfEvent := eventString c.2.2.2 c.2.2.1 }] := by
        simp [appendedRecords, List.filter_append, hlc]
      have e2 : appendCount (pre ++ [c]) = appendCount pre + 1 := by
        rw [← appendedRecords_length, e1, List.length_append, appendedRecords_length]
        rfl
      rw [e1] at hm
      rw [e2] at hn
      rw [if_neg hlc, hidx]
      have hml : m < appendCount pre + 1 := by
        have := (List.getElem?_eq_some_iff.1 hm).1
        rw [List.length_append, appendedRecords_length] at this
        exact this
      simp only [EVENT_MAX_STORAGE] at hn ⊢
      by_cases hmn : m = appendCount pre
      · subst hmn
        rw [List.getElem?_append_right (by rw [appendedRecords_length]),
          appendedRecords_length, Nat.sub_self] at hm
        simp only [List.getElem?_cons_zero, Option.some.injEq] at hm
        rw [Function.update_same]
        exact hm
      · have hml2 : m < appendCount pre := by omega
        rw [List.getElem?_append_left (by rw [appendedRecords_length]; exact hml2)] at hm
        rw [Function.update_noteq (by omega)]
        exact ih m e hm (by simp only [EVENT_MAX_STORAGE]; omega)

/-- C13: `eventsIndex` is below 100 in every state reached by `main`; after any
sequence of calls of `systemElementStateUpdate` that started with the index at
0 and appended `k` records, the index is `k mod 100`, and the next appending
call writes its record at slot `k mod 100`, changes no other slot and leaves
the index at `(k + 1) mod 100`; the slots of the last 100 appended records
hold these records, so the slot written by record `k ≥ 100` held record
`k - 100`, the oldest one kept. -/
theorem event_ring_buffer :
    (∀ (entry : List Char) (ticks : List TickInput) (s : State),
      main entry ticks = some s → s.eventsIndex < EVENT_MAX_STORAGE) ∧
    (∀ (pre : List (Nat × Bool × Bool × String)) (now : Nat) (l c : Bool) (name : String)
      (s : State), s.eventsIndex = 0 → l ≠ c →
      (appendRun pre s).eventsIndex = appendCount pre % EVENT_MAX_STORAGE ∧
      (systemElementStateUpdate now l c name (appendRun pre s)).arrayOfStoredEvents =
        Function.update (appendRun pre s).arrayOfStoredEvents
          (appendCount pre % EVENT_MAX_STORAGE)
          { seconds := now, typeOfEvent := eventString name c } ∧
      (systemElementStateUpdate now l c name (appendRun pre s)).eventsIndex =
        (appendCount pre + 1) % EVENT_MAX_STORAGE) ∧
    (∀ (pre : List (Nat × Bool × Bool × String)) (s : State) (m : Nat) (e : systemEvent_t),
      s.eventsIndex = 0 → (appendedRecords pre)[m]? = some e →
      appendCount pre ≤ m + EVENT_MAX_STORAGE →
      (appendRun pre s).arrayOfStoredEvents (m % EVENT_MAX_STORAGE) = e) := by
  refine ⟨main_index_lt, ?_, fun pre s m e h0 hm hn => appendRun_retains pre s h0 m e hm hn⟩
  intro pre now l c name s h0 hlc
  have hidx := appendRun_index pre s (by rw [h0]; decide)
  rw [h0, Nat.zero_add] at hidx
  have hlt : (appendRun pre s).eventsIndex < EVENT_MAX_STORAGE := by
    rw [hidx]; exact Nat.mod_lt _ (by decide)
  obtain ⟨-, -, -, -, -, -, a2⟩ := systemElementStateUpdate_log now l c name (appendRun pre s)
  obtain ⟨b1, -⟩ := systemElementStateUpdate_index now l c name (appendRun pre s) hlt
  refine ⟨hidx, ?_, ?_⟩
  · rw [a2, if_neg hlc, hidx]
  · rw [b1, if_neg hlc, hidx]
    simp only [EVENT_MAX_STORAGE]
    omega

/-- Witness for `event_ring_buffer`: a run of `main`, and the record appended
after 100 earlier ones, which goes to slot 0 and leaves the index at 1. -/
theorem event_ring_buffer_witness :
    main scans180 [buttonTick] = some (mainLoop [buttonTick] readyState180) ∧
    (mainLoop [buttonTick] readyState180).eventsIndex < EVENT_MAX_STORAGE ∧
    powerOnState.eventsIndex = 0 ∧
    appendCount (List.replicate 100 (0, false, true, "ALARM")) = 100 ∧
    (systemElementStateUpdate 7 false true "ALARM"
      (appendRun (List.replicate 100 (0, false, true, "ALARM")) powerOnState)).eventsIndex
      = 1 ∧
    (systemElementStateUpdate 7 false true "ALARM"
      (appendRun (List.replicate 100 (0, false, true, "ALARM"))
        powerOnState)).arrayOfStoredEvents 0 = { seconds := 7, typeOfEvent := "ALARM_ON" } :=
  ⟨rfl, event_ring_buffer.1 scans180 [buttonTick] _ rfl, rfl, by decide!,
   (event_ring_buffer.2.1 (List.replicate 100 (0, false, true, "ALARM")) 7 false true "ALARM"
     powerOnState rfl (by decide)).2.2.trans (by decide!),
   (congrFun (event_ring_buffer.2.1 (List.replicate 100 (0, false, true, "ALARM")) 7 false true
     "ALARM" powerOnState rfl (by decide)).2.1 0).trans (by
       rw [show appendCount (List.replicate 100 (0, false, true, "ALARM")) % EVENT_MAX_STORAGE = 0
         from by decide!, Function.update_same]
       decide)⟩

theorem signalsSeen_append (l1 l2 : List TickInput) (s : State) :
    signalsSeen (l1 ++ l2) s = signalsSeen l1 s ++ signalsSeen l2 (mainLoop l1 s) := by
  induction l1 generalizing s with
  | nil => rfl
  | cons inp rest ih =>
    show _ :: signalsSeen (rest ++ l2) _ = _ :: _ ++ _
    rw [ih]
    rfl

theorem signalsSeen_length (l : List TickInput) (s : State) :
    (signalsSeen l s).length = l.length := by
  induction l generalizing s with
  | nil => rfl
  | cons inp rest ih => simp only [signalsSeen, List.length_cons, ih]

theorem quiet_run (ticks : List TickInput) (s : State) (a g t i b : Bool)
    (h1 : lastValues s = (a, g, t, i, b))
    (h2 : signalsSeen ticks s = List.replicate ticks.length (a, g, t, i, b)) :
    lastValues (mainLoop ticks s) = (a, g, t, i, b) ∧
    eventBuffer (mainLoop ticks s) = eventBuffer s := by
  induction ticks generalizing s with
  | nil => exact ⟨h1, rfl⟩
  | cons inp rest ih =>
    simp only [signalsSeen, List.length_cons, List.replicate_succ, List.cons.injEq] at h2
    obtain ⟨x1, x2⟩ := tick_log inp s
    have hp : lastValues (preLog inp s) = (a, g, t, i, b) :=
      (logFields_split _ _ (preLog_logFields inp s)).1.trans h1
    rw [changedEvents_alarm_only _ _ _ a a g t i b hp h2.1] at x2
    obtain ⟨y1, y2⟩ := ih (mainLoopTick inp s) (x1.trans h2.1) h2.2
    refine ⟨y1, y2.trans (x2.trans ?_)⟩
    simp only [specEdgeRecord, if_true]
    rfl

theorem edge_tick (inp : TickInput) (s : State) (a c g t i b : Bool) (hac : a ≠ c)
    (h1 : lastValues s = (a, g, t, i, b))
    (h2 : loggedSignals inp.mq2 (preLog inp s) = (c, g, t, i, b)) :
    lastValues (mainLoopTick inp s) = (c, g, t, i, b) ∧
    eventBuffer (mainLoopTick inp s) =
      eventBuffer (storeEvent
        { seconds := inp.now, typeOfEvent := "ALARM" ++ "_" ++ (if c then "ON" else "OFF") }
        s) := by
  obtain ⟨x1, x2⟩ := tick_log inp s
  have hp : lastValues (preLog inp s) = (a, g, t, i, b) :=
    (logFields_split _ _ (preLog_logFields inp s)).1.trans h1
  rw [changedEvents_alarm_only _ _ _ a c g t i b hp h2] at x2
  refine ⟨x1.trans h2, x2.trans ?_⟩
  simp only [specEdgeRecord, hac, if_false]
  rfl

theorem alarm_edges_run (pre mid post : List TickInput) (rise fall : TickInput) (s : State)
    (g t i b : Bool) (h1 : lastValues s = (false, g, t, i, b))
    (h2 : signalsSeen (pre ++ rise :: (mid ++ fall :: post)) s =
      List.replicate pre.length (false, g, t, i, b) ++
        (List.replicate (mid.length + 1) (true, g, t, i, b) ++
          List.replicate (post.length + 1) (false, g, t, i, b))) :
    eventBuffer (mainLoop (pre ++ rise :: (mid ++ fall :: post)) s) =
      eventBuffer (storeAll
        [{ seconds := rise.now, typeOfEvent := "ALARM_ON" },
         { seconds := fall.now, typeOfEvent := "ALARM_OFF" }] s) := by
  rw [signalsSeen_append] at h2
  obtain ⟨p1, p2⟩ := List.append_inj h2 (by rw [signalsSeen_length, List.length_replicate])
  obtain ⟨q1, q2⟩ := quiet_run pre s false g t i b h1 p1
  simp only [signalsSeen, List.replicate_succ, List.cons_append, List.cons.injEq] at p2
  obtain ⟨r1, r2⟩ := edge_tick rise (mainLoop pre s) false true g t i b (by decide) q1 p2.1
  have p3 := p2.2
  rw [signalsSeen_append] at p3
  obtain ⟨p4, p5⟩ := List.append_inj p3 (by rw [signalsSeen_length, List.length_replicate])
  obtain ⟨u1, u2⟩ := quiet_run mid _ true g t i b r1 p4
  simp only [signalsSeen, List.replicate_succ, List.cons.injEq] at p5
  obtain ⟨w1, w2⟩ := edge_tick fall _ true false g t i b (by decide) u1 p5.1
  obtain ⟨z1, z2⟩ := quiet_run post _ false g t i b w1 p5.2
  have e : mainLoop (pre ++ rise :: (mid ++ fall :: post)) s =
      mainLoop post (mainLoopTick fall (mainLoop mid (mainLoopTick rise (mainLoop pre s)))) := by
    simp only [mainLoop, List.foldl_append, List.foldl_cons]
  rw [e]
  refine z2.trans (w2.trans ?_)
  have c1 := storeAll_buffer [{ seconds := rise.now, typeOfEvent := "ALARM_ON" }] _ _ q2
  have c2 := storeAll_buffer [{ seconds := fall.now, typeOfEvent := "ALARM_OFF" }] _ _
    (u2.trans (r2.trans c1))
  exact c2

/-- C12: in a run of the polling loop in which `eventLogUpdate` finds the alarm
flag false (as stored), then true from iteration `rise` on, then false from
iteration `fall` on, the other four logged signals keeping their stored values,
the event buffer at the end is the initial buffer with two records appended,
ALARM_ON (time of `rise`) then ALARM_OFF (time of `fall`); one call of
`eventLogUpdate` sets the five last-value cells to the current signals and
appends to the buffer, in the order ALARM, GAS_DET, OVER_TEMP, LED_IC, LED_SB,
one record per signal whose current value differs from its stored last value,
labelled with the full text NAME_ON or NAME_OFF; it leaves the buffer as it is
when no signal differs. -/
theorem event_log_edges :
    (∀ (pre mid post : List TickInput) (rise fall : TickInput) (s : State) (g t i b : Bool),
      lastValues s = (false, g, t, i, b) →
      signalsSeen (pre ++ rise :: (mid ++ fall :: post)) s =
        List.replicate pre.length (false, g, t, i, b) ++
          (List.replicate (mid.length + 1) (true, g, t, i, b) ++
            List.replicate (post.length + 1) (false, g, t, i, b)) →
      eventBuffer (mainLoop (pre ++ rise :: (mid ++ fall :: post)) s) =
        eventBuffer (storeAll
          [{ seconds := rise.now, typeOfEvent := "ALARM_ON" },
           { seconds := fall.now, typeOfEvent := "ALARM_OFF" }] s)) ∧
    (∀ (now : Nat) (mq2 : Bool) (s : State),
      lastValues (eventLogUpdate now mq2 s) = loggedSignals mq2 s ∧
      eventBuffer (eventLogUpdate now mq2 s) =
        eventBuffer (storeAll (specChangedEvents now mq2 s) s)) ∧
    (∀ (now : Nat) (mq2 : Bool) (s : State), lastValues s = loggedSignals mq2 s →
      eventBuffer (eventLogUpdate now mq2 s) = eventBuffer s) := by
  refine ⟨alarm_edges_run, eventLogUpdate_log, fun now mq2 s h => ?_⟩
  rw [(eventLogUpdate_log now mq2 s).2,
    changedEvents_alarm_only now mq2 s s.alarmState s.alarmState (!mq2) s.overTempDetector
      s.incorrectCodeLed s.systemBlockedLed h rfl]
  simp only [specEdgeRecord, if_true]
  rfl

/-- Witness for `event_log_edges`: after the code 1-8-0 is entered, an iteration
with the test button pressed, an iteration with the right code on the console,
and an idle iteration. -/
theorem event_log_edges_witness :
    lastValues readyState180 = (false, false, false, false, false) ∧
    signalsSeen alarmEdgeTicks readyState180 =
      [(true, false, false, false, false), (false, false, false, false, false),
        (false, false, false, false, false)] ∧
    eventBuffer (mainLoop alarmEdgeTicks readyState180) =
      eventBuffer (storeAll
        [{ seconds := 5, typeOfEvent := "ALARM_ON" },
         { seconds := 9, typeOfEvent := "ALARM_OFF" }] readyState180) :=
  ⟨by decide!, by decide!,
   event_log_edges.1 [] [] [quietTick NUL] { buttonTick with now := 5 }
     { quietConsoleTick NUL '1' '8' '0' with now := 9 }
     readyState180 false false false false (by decide!) (by decide!)⟩

theorem foldl_add_eq_sum (f : Nat → ℚ) (n : Nat) :
    (List.range n).foldl (fun acc i => acc + f i) 0 = ∑ i in Finset.range n, f i := by
  induction n with
  | zero => rfl
  | succ n ih =>
    rw [List.range_succ, List.foldl_append, List.foldl_cons, List.foldl_nil, ih,
      Finset.sum_range_succ]

theorem alarmActivationUpdate_temp (r : ℚ) (mq2 b : Bool) (s : State) :
    (alarmActivationUpdate r mq2 b s).lm35ReadingsArray =
      Function.update s.lm35ReadingsArray s.lm35SampleIndex r ∧
    (alarmActivationUpdate r mq2 b s).lm35SampleIndex =
      (if s.lm35SampleIndex + 1 ≥ NUMBER_OF_AVG_SAMPLES then 0 else s.lm35SampleIndex + 1) ∧
    (alarmActivationUpdate r mq2 b s).lm35ReadingsAverage =
      (∑ i in Finset.range 100, Function.update s.lm35ReadingsArray s.lm35SampleIndex r i) /
        100 := by
  have h1 : ∀ u : State, (alarmOutputs u).lm35ReadingsArray = u.lm35ReadingsArray ∧
      (alarmOutputs u).lm35SampleIndex = u.lm35SampleIndex ∧
      (alarmOutputs u).lm35ReadingsAverage = u.lm35ReadingsAverage := by
    intro u
    simp only [alarmOutputs]
    split_ifs <;> exact ⟨rfl, rfl, rfl⟩
  have h2 : ∀ u : State, (latchDetectors mq2 b u).lm35ReadingsArray = u.lm35ReadingsArray ∧
      (latchDetectors mq2 b u).lm35SampleIndex = u.lm35SampleIndex ∧
      (latchDetectors mq2 b u).lm35ReadingsAverage = u.lm35ReadingsAverage := by
    intro u
    simp only [latchDetectors]
    split_ifs <;> exact ⟨rfl, rfl, rfl⟩
  have h3 : (lm35Sample r s).lm35ReadingsAverage =
      (List.range 100).foldl
        (fun acc i => acc + Function.update s.lm35ReadingsArray s.lm35SampleIndex r i) 0 /
        100 := by
    simp only [lm35Sample, NUMBER_OF_AVG_SAMPLES]
    norm_num
  unfold alarmActivationUpdate
  refine ⟨((h1 _).1.trans (h2 _).1).trans rfl, ((h1 _).2.1.trans (h2 _).2.1).trans rfl, ?_⟩
  rw [(h1 _).2.2, (h2 _).2.2, h3, foldl_add_eq_sum]

theorem sampleInv_step (xs : List ℚ) (r : ℚ) (mq2 b : Bool) (s : State) (h : SampleInv xs s) :
    SampleInv (xs ++ [r]) (alarmActivationUpdate r mq2 b s) ∧
    (alarmActivationUpdate r mq2 b s).lm35ReadingsAverage =
      ((xs ++ [r]).drop ((xs ++ [r]).length - 100)).sum / 100 := by
  obtain ⟨i1, i2, i3, i4⟩ := h
  obtain ⟨a1, a2, a3⟩ := alarmActivationUpdate_temp r mq2 b s
  have hlt : xs.length % 100 < 100 := Nat.mod_lt _ (by decide)
  have hsum : ∑ i in Finset.range 100, Function.update s.lm35ReadingsArray (xs.length % 100) r i =
      ((xs ++ [r]).drop ((xs ++ [r]).length - 100)).sum := by
    have e1 := Finset.sum_update_of_mem (Finset.mem_range.2 hlt) s.lm35ReadingsArray r
    have e2 := Finset.sum_update_of_mem (Finset.mem_range.2 hlt) s.lm35ReadingsArray
      (s.lm35ReadingsArray (xs.length % 100))
    rw [Function.update_eq_self, i4] at e2
    rw [e1]
    by_cases hn : xs.length < 100
    · have z : s.lm35ReadingsArray (xs.length % 100) = 0 := by
        rw [Nat.mod_eq_of_lt hn]
        exact i3 _ (le_refl _) hn
      rw [z, zero_add] at e2
      rw [← e2]
      have d1 : xs.length - 100 = 0 := by omega
      have d2 : (xs ++ [r]).length - 100 = 0 := by
        rw [List.length_append, List.length_singleton]; omega
      rw [d1, d2, List.drop_zero, List.drop_zero, List.sum_append, List.sum_singleton, add_comm]
    · have hge : 100 ≤ xs.length := by omega
      have hm : xs.length - 100 < xs.length := by omega
      have z : s.lm35ReadingsArray (xs.length % 100) = xs.getD (xs.length - 100) 0 := by
        have := i2 (xs.length - 100) hm (by omega)
        rw [← this]
        congr 1
        omega
      rw [List.getD_eq_getElem _ _ hm] at z
      rw [z, List.drop_eq_getElem_cons hm, List.sum_cons] at e2
      have d2 : (xs ++ [r]).length - 100 = xs.length - 100 + 1 := by
        rw [List.length_append, List.length_singleton]; omega
      rw [d2, List.drop_append_of_le_length (by omega), List.sum_append, List.sum_singleton]
      linarith
  refine ⟨⟨?_, ?_, ?_, ?_⟩, ?_⟩
  · rw [a2, i1, List.length_append, List.length_singleton]
    simp only [NUMBER_OF_AVG_SAMPLES]
    split_ifs <;> omega
  · intro m hm1 hm2
    rw [List.length_append, List.length_singleton] at hm1 hm2
    rw [a1, i1]
    by_cases hmn : m = xs.length
    · subst hmn
      rw [Function.update_same]
      simp [List.getD_eq_getElem?_getD]
    · have hml : m < xs.length := by omega
      rw [Function.update_noteq (by omega), i2 m hml (by omega)]
      simp [List.getD_eq_getElem?_getD, List.getElem?_append_left hml]
  · intro i hi1 hi2
    rw [List.length_append, List.length_singleton] at hi1
    rw [a1, i1, Function.update_noteq (by omega)]
    exact i3 i (by omega) hi2
  · rw [a1, i1]
    exact hsum
  · rw [a3, i1, hsum]

theorem activationRun_snoc (calls : List (ℚ × Bool × Bool)) (c : ℚ × Bool × Bool) (s : State) :
    activationRun (calls ++ [c]) s =
      alarmActivationUpdate c.1 c.2.1 c.2.2 (activationRun calls s) := by
  simp only [activationRun, List.foldl_append, List.foldl_cons, List.foldl_nil]

theorem activationRun_sampleInv (calls : List (ℚ × Bool × Bool)) (s : State)
    (hz : ∀ i, i < NUMBER_OF_AVG_SAMPLES → s.lm35ReadingsArray i = 0)
    (hi : s.lm35SampleIndex = 0) (ha : s.lm35ReadingsAverage = 0) :
    SampleInv (calls.map fun c => c.1) (activationRun calls s) ∧
    (activationRun calls s).lm35ReadingsAverage =
      ((calls.map fun c => c.1).drop ((calls.map fun c => c.1).length - 100)).sum / 100 := by
  induction calls using List.reverseRecOn with
  | nil =>
    refine ⟨⟨hi, fun m hm _ => absurd hm (Nat.not_lt_zero _), fun i _ hi2 => hz i hi2, ?_⟩, ?_⟩
    · exact Finset.sum_eq_zero fun i hi2 => hz i (Finset.mem_range.1 hi2)
    · simp only [activationRun, List.foldl_nil, List.map_nil, List.drop_nil, List.sum_nil,
        zero_div, ha]
  | append_singleton calls c ih =>
    rw [activationRun_snoc, List.map_append, List.map_cons, List.map_nil]
    exact sampleInv_step _ c.1 c.2.1 c.2.2 _ ih.1

/-- C14: from a state with the sample buffer at zero, the sample index at 0 and
the average at 0 (as at power-on), after any sequence of calls of
`alarmActivationUpdate`, `lm35ReadingsAverage` is the sum of the last
`min n 100` of the `n` samples read, divided by 100; when at least 100 calls
were made and the last 100 samples all equal `V`, the average is `V`. -/
theorem temperature_average (calls : List (ℚ × Bool × Bool)) (s : State)
    (hz : ∀ i, i < NUMBER_OF_AVG_SAMPLES → s.lm35ReadingsArray i = 0)
    (hi : s.lm35SampleIndex = 0) (ha : s.lm35ReadingsAverage = 0) :
    (activationRun calls s).lm35ReadingsAverage = specMeanOfLast (calls.map fun c => c.1) ∧
    ∀ V : ℚ, NUMBER_OF_AVG_SAMPLES ≤ calls.length →
      (∀ c ∈ calls.drop (calls.length - NUMBER_OF_AVG_SAMPLES), c.1 = V) →
      (activationRun calls s).lm35ReadingsAverage = V := by
  have h := (activationRun_sampleInv calls s hz hi ha).2
  have e : (calls.map fun c => c.1).length - min (calls.map fun c => c.1).length 100 =
      (calls.map fun c => c.1).length - 100 := by omega
  refine ⟨?_, fun V hn hV => ?_⟩
  · rw [h]
    simp only [specMeanOfLast, NUMBER_OF_AVG_SAMPLES]
    rw [e]
    norm_num
  · rw [h]
    simp only [NUMBER_OF_AVG_SAMPLES] at hn hV
    have hl : ((calls.map fun c => c.1).drop ((calls.map fun c => c.1).length - 100)) =
        List.replicate 100 V := by
      rw [List.eq_replicate_iff]
      constructor
      · rw [List.length_drop, List.length_map]; omega
      · intro x hx
        rw [List.length_map, ← List.map_drop, List.mem_map] at hx
        obtain ⟨c, hc, rfl⟩ := hx
        exact hV c hc
    rw [hl, List.sum_replicate]
    simp

/-- Witness for `temperature_average`: three calls from the power-on state, and
100 calls reading 1/2. -/
theorem temperature_average_witness :
    (activationRun [(1, true, false), (2, true, false), (4, true, false)]
      powerOnState).lm35ReadingsAverage = 7 / 100 ∧
    (activationRun (List.replicate 100 (1 / 2, true, false)) powerOnState).lm35ReadingsAverage
      = 1 / 2 :=
  ⟨(temperature_average [(1, true, false), (2, true, false), (4, true, false)] powerOnState
     (fun _ _ => rfl) rfl rfl).1.trans (by decide!),
   (temperature_average (List.replicate 100 (1 / 2, true, false)) powerOnState
     (fun _ _ => rfl) rfl rfl).2 (1 / 2) (by decide!)
     (fun c hc => by rw [List.eq_of_mem_replicate (List.mem_of_mem_drop hc)])⟩

/-! ## C21: stale latch across re-arm -/

theorem gasOnly_activation (r : ℚ) (s : State)
    (ht : (lm35Sample r s).lm35TempC ≤ OVER_TEMP_LEVEL) :
    (alarmActivationUpdate r false false s).alarmState = true ∧
    (alarmActivationUpdate r false false s).gasDetectorState = true ∧
    (alarmActivationUpdate r false false s).overTempDetectorState = s.overTempDetectorState ∧
    (s.overTempDetectorState = true →
      BlinkStep 100 s (alarmActivationUpdate r false false s)) ∧
    (s.overTempDetectorState = false →
      BlinkStep 1000 s (alarmActivationUpdate r false false s)) := by
  have h : (alarmActivationUpdate r false false s).alarmState = true := by
    unfold alarmActivationUpdate
    rw [(alarmOutputs_frame _).1, (latchDetectors_alarmState _ _ _).1]
    simp
  have hot : (lm35Sample r s).overTempDetector = false := by
    rw [lm35Sample_overTemp, decide_eq_false_iff_not]
    exact not_lt.2 ht
  obtain ⟨a1, a2⟩ := alarmActivationUpdate_latches r false false s h
  obtain ⟨b1, b2, -⟩ := alarmActivationUpdate_blink r false false s h
  have g : (alarmActivationUpdate r false false s).gasDetectorState = true := by
    rw [a1]; simp
  have o : (alarmActivationUpdate r false false s).overTempDetectorState =
      s.overTempDetectorState := by
    rw [a2, hot]; simp
  exact ⟨h, g, o, fun hs => b1 g (o.trans hs), fun hs => b2 g (o.trans hs)⟩

/-- C21: the run of `main` with code 1-8-0 and iterations `staleLatchTicks`.
Iteration 1 (test button) starts an episode with both latches ON; the code
1-8-0 and `#` is entered on the keypad and iteration 29 ends with `alarmState`
false; from iteration 30 on only the gas line is active (over-temperature flag
false, button unpressed).  In all 41 iterations `alarmActivationUpdate` takes
its active branch, `overTempDetectorState` is ON at the end of every iteration,
and the indicator is toggled with the accumulator reset at iterations 10, 20,
30 and 40, that is every 100 time units, also in the gas-only episode.  With one
idle iteration before the gas line becomes active the inactive branch is taken
once, both latches are OFF after it, and the gas-only episode has
`overTempDetectorState` OFF and no toggle in its first twelve iterations.  In
general a call of `alarmActivationUpdate` with only the gas line active leaves
`overTempDetectorState` as it was and blinks with period 100 if it was ON and
1000 if it was OFF. -/
theorem stale_latch_across_rearm :
    mainActivationTrace episodeView scans180 staleLatchTicks =
      some ((List.range 41).map fun i => bothLatchesView (decide (i = 28)) i) ∧
    mainActivationTrace episodeView scans180 idleBeforeGasTicks =
      some (((List.range 29).map fun i => bothLatchesView (decide (i = 28)) i) ++
        [{ activeBranch := false, alarmState := false, incorrectCodeLed := false,
           gasDetectorState := false, overTempDetectorState := false,
           overTempDetector := false, alarmLed := false, accumulatedTimeAlarm := 90 }] ++
        (List.range 12).map fun k =>
          { activeBranch := true, alarmState := true, incorrectCodeLed := false,
            gasDetectorState := true, overTempDetectorState := false,
            overTempDetector := false, alarmLed := false,
            accumulatedTimeAlarm := 100 + 10 * k }) ∧
    ∀ (r : ℚ) (s : State), (lm35Sample r s).lm35TempC ≤ OVER_TEMP_LEVEL →
      (alarmActivationUpdate r false false s).alarmState = true ∧
      (alarmActivationUpdate r false false s).gasDetectorState = true ∧
      (alarmActivationUpdate r false false s).overTempDetectorState =
        s.overTempDetectorState ∧
      (s.overTempDetectorState = true →
        BlinkStep 100 s (alarmActivationUpdate r false false s)) ∧
      (s.overTempDetectorState = false →
        BlinkStep 1000 s (alarmActivationUpdate r false false s)) :=
  ⟨by decide!, by decide!, gasOnly_activation⟩

/-- Witness for `stale_latch_across_rearm`: in `disarmedState` the alarm is
inactive and the over-temperature latch still ON; a call with only the gas line
active keeps the latch and makes a blink step of period 100. -/
theorem stale_latch_across_rearm_witness :
    disarmedState.alarmState = false ∧ disarmedState.overTempDetectorState = true ∧
    (lm35Sample 0 disarmedState).lm35TempC ≤ OVER_TEMP_LEVEL ∧
    (alarmActivationUpdate 0 false false disarmedState).overTempDetectorState = true ∧
    BlinkStep 100 disarmedState (alarmActivationUpdate 0 false false disarmedState) :=
  ⟨by decide!, by decide!, by decide!,
   (stale_latch_across_rearm.2.2 0 disarmedState (by decide!)).2.2.1.trans (by decide!),
   (stale_latch_across_rearm.2.2 0 disarmedState (by decide!)).2.2.2.1 (by decide!)⟩

end AlarmSystem
